import Mathlib

/-!
# netcap: the connection tracker and its neighbours

A shallow embedding of `ConnectionDecoder.handlePacket`, `DeInit`, `Destroy`
and `writeConn` (`decoder/connection.go`), of the TCP stream processor
(`decoder/tcpStreamProcessor.go`), of the TLS server hello encoder
(`encoder/tlsServerHello.go`), of the audit record transforms
(`maltego/service.go`, `maltego/software.go`), of the vulnerability transform
(`cmd/transform/ToSoftwareVulnerabilities.go`) and of the table of additional
entities (`maltego/entity_test.go`), followed by their properties.

Conventions of the embedding:

* Go's `time.Time` is an integer number of nanoseconds since the Unix epoch,
  `time.Duration` an `int64` number of nanoseconds (`Time.Sub` saturates as
  Go's does).
* `int32` and `int64` fields are integers reduced by `wrapInt32`, `wrapInt64`.
* `map[string]*Conn` is an association list with pairwise distinct keys, in
  insertion order. Go iterates a map in an unspecified order, so no statement
  below depends on the order of the list.
* A `*types.Connection` is a pair of an address (`ptr`) and the record it
  points to; the address is what tells two connection objects apart.
* The tracker is run sequentially and the locks are no-ops. `flush` takes the
  writes of the background flush task at the moment the task is spawned;
  `handlePacketSpawning` keeps the spawned tasks apart from the sink, for the
  statements that depend on when a task writes.
-/

namespace Netcap

/-! ## Go library values -/

/-- Go's `time.Time`, as nanoseconds since the Unix epoch. -/
abbrev Time := Int

/-- Go's zero `time.Time` (January 1, year 1, 00:00:00 UTC). -/
def zeroTime : Time := -62135596800000000000

/-- The smallest `time.Duration` (an `int64`). -/
def minDuration : Int := -9223372036854775808

/-- The largest `time.Duration` (an `int64`). -/
def maxDuration : Int := 9223372036854775807

/-- Go's `t.Before(u)`. -/
def Time.Before (t u : Time) : Bool := decide (t < u)

/-- Go's `t.Sub(u).Nanoseconds()`: the difference, saturated to the range of
`time.Duration`. -/
def Time.Sub (t u : Time) : Int :=
  if minDuration ≤ t - u ∧ t - u ≤ maxDuration then t - u
  else if t < u then minDuration
  else maxDuration

/-- Conversion of an integer to Go's `int32` (two's complement truncation). -/
def wrapInt32 (x : Int) : Int := (x + 2147483648) % 4294967296 - 2147483648

/-- Conversion of an integer to Go's `int64` (two's complement truncation). -/
def wrapInt64 (x : Int) : Int :=
  (x + 9223372036854775808) % 18446744073709551616 - 9223372036854775808

/-- Go's `strconv.FormatUint(x, 10)`. -/
def FormatUint (x : UInt64) : String := toString x.toNat

/-! ## Packets (`gopacket.Packet`) -/

/-- A `gopacket.Flow`: what `Src().String()`, `Dst().String()` and
`FastHash()` return. -/
structure Flow where
  src : String
  dst : String
  fastHash : UInt64
  deriving DecidableEq, Repr

/-- A link, network or transport layer: `LayerType().String()` and the layer's
flow (`LinkFlow()`, `NetworkFlow()`, `TransportFlow()`). -/
structure FlowLayer where
  layerType : String
  flow : Flow
  deriving DecidableEq, Repr

/-- An application layer: `LayerType().String()` and `Payload()`. -/
structure ApplicationLayer where
  layerType : String
  payload : List UInt8
  deriving DecidableEq, Repr

/-- A `gopacket.Packet`: `Metadata().Timestamp`, `Data()` and the four layer
accessors, each of which may return nil. -/
structure Packet where
  timestamp : Time
  data : List UInt8
  linkLayer : Option FlowLayer
  networkLayer : Option FlowLayer
  transportLayer : Option FlowLayer
  applicationLayer : Option ApplicationLayer
  deriving DecidableEq, Repr

/-! ## Records and tracker state -/

/-- The `types.Connection` audit record. The record type is generated from the
protobuf schema; its string fields default to the empty string and its
counters are signed 32-bit integers (`Duration` is 64-bit), all defaulting
to 0. -/
structure Connection where
  TimestampFirst : String := ""
  LinkProto : String := ""
  NetworkProto : String := ""
  TransportProto : String := ""
  ApplicationProto : String := ""
  SrcMAC : String := ""
  DstMAC : String := ""
  SrcIP : String := ""
  SrcPort : String := ""
  DstIP : String := ""
  DstPort : String := ""
  TotalSize : Int := 0
  AppPayloadSize : Int := 0
  NumPackets : Int := 0
  UID : String := ""
  Duration : Int := 0
  TimestampLast : String := ""
  deriving DecidableEq, Repr

/-- `ConnectionID`: the three flow hashes of a packet. -/
structure ConnectionID where
  LinkFlowID : UInt64 := 0
  NetworkFlowID : UInt64 := 0
  TransportFlowID : UInt64 := 0
  deriving DecidableEq, Repr

/-- `ConnectionID.String`. -/
def ConnectionID.String (c : ConnectionID) : String :=
  FormatUint c.LinkFlowID ++ FormatUint c.NetworkFlowID ++ FormatUint c.TransportFlowID

/-- `Conn`: a pointer to a `types.Connection` (the mutex is not modelled).
`ptr` is the address of the record, `Connection` the record it points to. -/
structure Conn where
  ptr : Nat
  Connection : Connection
  deriving DecidableEq, Repr

/-- The helpers of the repository that `handlePacket` calls and that are
defined outside `decoder/connection.go`: `utils.TimeToString`,
`utils.StringToTime`, `calcMd5` and the generated `Connection.String`. -/
structure Helpers where
  TimeToString : Time → String
  StringToTime : String → Time
  calcMd5 : String → String
  connString : Connection → String

/-- The configuration `c` as far as the tracker reads it. -/
structure Config where
  ConnFlushInterval : Int
  ConnTimeOut : Int
  Export : Bool
  deriving DecidableEq, Repr

/-- The audit record writer `cd.writer`: whether it is a channel writer, the
records written so far (oldest first) and whether `Close` was called. -/
structure Writer where
  IsChanWriter : Bool
  records : List Conn
  closed : Bool
  deriving DecidableEq, Repr

/-- The state `handlePacket` works on: the map `cd.Conns.Items`, the writer,
`cd.numRecords`, the package counter `stats.numConns`, the number of
`conn.Inc()` calls, and the number of `types.Connection` objects allocated so
far (the next free address). -/
structure ConnectionDecoder where
  Items : List (String × Conn)
  writer : Writer
  numRecords : Int
  numConns : Int
  numInc : Nat
  allocs : Nat
  deriving DecidableEq, Repr

/-! ## The tracker -/

/-- Lookup `cd.Conns.Items[key]`. -/
def lookupConn (items : List (String × Conn)) (key : String) : Option Conn :=
  match items with
  | [] => none
  | e :: rest => if e.1 = key then some e.2 else lookupConn rest key

/-- Store through the pointer held at `key`: the entry keeps its key and its
address, the record it points to becomes `c`. -/
def storeConn (items : List (String × Conn)) (key : String) (c : Connection) :
    List (String × Conn) :=
  items.map fun e => if e.1 = key then (e.1, { e.2 with Connection := c }) else e

/-- The assembly of the `ConnectionID` at the head of `handlePacket`. -/
def connIDOf (p : Packet) : ConnectionID :=
  let connID : ConnectionID := {}
  let connID := match p.linkLayer with
    | some ll => { connID with LinkFlowID := ll.flow.fastHash }
    | none => connID
  let connID := match p.networkLayer with
    | some nl => { connID with NetworkFlowID := nl.flow.fastHash }
    | none => connID
  match p.transportLayer with
    | some tl => { connID with TransportFlowID := tl.flow.fastHash }
    | none => connID

/-- The rewrite of the source and destination fields inside the first `if` of
the hit branch. -/
def rewriteEndpoints (conn : Connection) (p : Packet) : Connection :=
  let conn := match p.linkLayer with
    | some ll => { conn with SrcMAC := ll.flow.src, DstMAC := ll.flow.dst }
    | none => conn
  let conn := match p.networkLayer with
    | some nl => { conn with SrcIP := nl.flow.src, DstIP := nl.flow.dst }
    | none => conn
  match p.transportLayer with
    | some tl => { conn with SrcPort := tl.flow.src, DstPort := tl.flow.dst }
    | none => conn

/-- The hit branch of `handlePacket` ("connID exists. update fields"), as a
function of the record the map entry points to. -/
def updateConnection (h : Helpers) (conn : Connection) (p : Packet) : Connection :=
  let calcDuration := false
  let (conn, calcDuration) :=
    if !(h.StringToTime conn.TimestampFirst).Before p.timestamp then
      (rewriteEndpoints { conn with TimestampFirst := h.TimeToString p.timestamp } p, true)
    else (conn, calcDuration)
  let (conn, calcDuration) :=
    if (h.StringToTime conn.TimestampLast).Before p.timestamp then
      ({ conn with TimestampLast := h.TimeToString p.timestamp }, true)
    else (conn, calcDuration)
  let conn := { conn with NumPackets := wrapInt32 (conn.NumPackets + 1) }
  let conn := { conn with TotalSize := wrapInt32 (conn.TotalSize + wrapInt32 p.data.length) }
  if calcDuration then
    { conn with Duration :=
        (h.StringToTime conn.TimestampLast).Sub (h.StringToTime conn.TimestampFirst) }
  else conn

/-- The record built in the miss branch of `handlePacket` ("create a new
Connection"). -/
def createConnection (h : Helpers) (p : Packet) : Connection :=
  let conn : Connection := {}
  let conn := { conn with UID := h.calcMd5 (h.connString conn) }
  let conn := { conn with TimestampFirst := h.TimeToString p.timestamp }
  let conn := match p.linkLayer with
    | some ll => { conn with LinkProto := ll.layerType, SrcMAC := ll.flow.src, DstMAC := ll.flow.dst }
    | none => conn
  let conn := match p.networkLayer with
    | some nl => { conn with NetworkProto := nl.layerType, SrcIP := nl.flow.src, DstIP := nl.flow.dst }
    | none => conn
  let conn := match p.transportLayer with
    | some tl => { conn with TransportProto := tl.layerType, SrcPort := tl.flow.src, DstPort := tl.flow.dst }
    | none => conn
  match p.applicationLayer with
    | some al => { conn with ApplicationProto := al.layerType, AppPayloadSize := wrapInt32 al.payload.length }
    | none => conn

/-- `writeConn`: count the record (and its metric when `Export` is set) and
hand it to the writer. -/
def writeConn (c : Config) (cd : ConnectionDecoder) (conn : Conn) : ConnectionDecoder :=
  { cd with
    numInc := if c.Export then cd.numInc + 1 else cd.numInc
    numRecords := wrapInt64 (cd.numRecords + 1)
    writer := { cd.writer with records := cd.writer.records ++ [conn] } }

/-- The condition of the flush loop: the entry's last timestamp is more than
`ConnTimeOut` older than the current packet. -/
def flushCond (h : Helpers) (c : Config) (p : Packet) (entry : Conn) : Bool :=
  decide (p.timestamp.Sub (h.StringToTime entry.Connection.TimestampLast) > c.ConnTimeOut)

/-- The miss branch of `handlePacket` up to the flush: the new record is
allocated and inserted under `key`, and `stats.numConns` is incremented. -/
def insertConnection (h : Helpers) (cd : ConnectionDecoder) (key : String) (p : Packet) :
    ConnectionDecoder :=
  let conn := createConnection h p
  { cd with
    Items := cd.Items ++ [(key, Conn.mk cd.allocs conn)]
    allocs := cd.allocs + 1
    numConns := wrapInt64 (cd.numConns + 1) }

/-- The body of the flush: the entries that satisfy `flushCond` are collected
and deleted from the map, then written. The source writes them in a background
task (lines 208-213); here the writes are taken at the moment the task is
spawned, and `handlePacketSpawning` below keeps the task apart. -/
def flush (h : Helpers) (c : Config) (cd : ConnectionDecoder) (p : Packet) : ConnectionDecoder :=
  let selectConns := (cd.Items.filter fun e => flushCond h c p e.2).map Prod.snd
  let cd := { cd with Items := cd.Items.filter fun e => !flushCond h c p e.2 }
  selectConns.foldl (writeConn c) cd

/-- `handlePacket`. -/
def handlePacket (h : Helpers) (c : Config) (cd : ConnectionDecoder) (p : Packet) :
    ConnectionDecoder :=
  let connID := connIDOf p
  match lookupConn cd.Items connID.String with
  | some conn =>
    { cd with Items := storeConn cd.Items connID.String (updateConnection h conn.Connection p) }
  | none =>
    let cd := insertConnection h cd connID.String p
    let conns := cd.numConns
    if c.ConnFlushInterval ≠ 0 ∧ conns.tmod c.ConnFlushInterval = 0 then flush h c cd p
    else cd

/-- `DeInit`: the terminal drain. It returns no error. -/
def DeInit (c : Config) (cd : ConnectionDecoder) : ConnectionDecoder :=
  if !cd.writer.IsChanWriter then
    (cd.Items.map Prod.snd).foldl (writeConn c) cd
  else cd

/-- `Destroy`: `DeInit`, then `cd.writer.Close()`. -/
def Destroy (c : Config) (cd : ConnectionDecoder) : ConnectionDecoder :=
  let cd := DeInit c cd
  { cd with writer := { cd.writer with closed := true } }

/-- The tracker before the first packet: `connectionDecoder` with an empty
map, `stats.numConns = 0` and nothing written. -/
def connectionDecoder (isChanWriter : Bool) : ConnectionDecoder :=
  { Items := []
    writer := Writer.mk isChanWriter [] false
    numRecords := 0
    numConns := 0
    numInc := 0
    allocs := 0 }

/-- Feeding a sequence of packets to `handlePacket`, in order. -/
def feed (h : Helpers) (c : Config) (cd : ConnectionDecoder) (ps : List Packet) :
    ConnectionDecoder :=
  ps.foldl (handlePacket h c) cd


/-! ## The time helpers and sample inputs -/

/-- Reading of a string of decimal digits, most significant first. -/
def parseDigits : List Char → Nat → Option Nat
  | [], acc => some acc
  | c :: cs, acc => if c.isDigit then parseDigits cs (10 * acc + (c.toNat - 48)) else none

/-- Reading of an optionally signed, non-empty string of decimal digits. -/
def parseInt (cs : List Char) : Option Int :=
  match cs with
  | [] => none
  | '-' :: ds => if ds = [] then none else (parseDigits ds 0).map fun n => -(n : Int)
  | ds => (parseDigits ds 0).map fun n => (n : Int)

/-- Modelled from the spec: `utils.TimeToString` is not part of the sources at
hand. The spec describes the timestamps of a `Connection` as
"nanosecond-precision wall time serialized as strings": the time is written
as its number of nanoseconds, in decimal. -/
def TimeToString (t : Time) : String := toString t

/-- Modelled from the spec: `utils.StringToTime` is not part of the sources at
hand. It reads back what `TimeToString` wrote; the function returns a
`time.Time` and no error, so a string that is not a serialized time (such as
the empty string of a field that was never set) reads as Go's zero time. -/
def StringToTime (val : String) : Time := (parseInt val.data).getD zeroTime

/-- The helpers with the time conversions above. `calcMd5` and
`Connection.String` only determine `UID`; they are represented by constant
functions, and the statements evaluated at `sampleHelpers` give `UID` as
`sampleUID`, whatever its value. -/
def sampleHelpers : Helpers := ⟨TimeToString, StringToTime, fun _ => "", fun _ => ""⟩

/-- The `UID` every connection gets under `sampleHelpers`: `calcMd5` of the
string form of the empty record. -/
def sampleUID : String := sampleHelpers.calcMd5 (sampleHelpers.connString {})

/-- A configuration with the periodic flush switched off. -/
def noFlush : Config := ⟨0, 0, false⟩

/-- Packet A of the direction inversion scenario: `ts=100`,
`10.0.0.1:5000 -> 10.0.0.2:80`, 60 bytes. -/
def pktA : Packet :=
  { timestamp := 100
    data := List.replicate 60 0
    linkLayer := some ⟨"Ethernet", ⟨"aa:aa:aa:aa:aa:aa", "bb:bb:bb:bb:bb:bb", 7⟩⟩
    networkLayer := some ⟨"IPv4", ⟨"10.0.0.1", "10.0.0.2", 11⟩⟩
    transportLayer := some ⟨"TCP", ⟨"5000", "80", 13⟩⟩
    applicationLayer := none }

/-- Packet B of the direction inversion scenario: `ts=50`,
`10.0.0.2:80 -> 10.0.0.1:5000`, 40 bytes, same flow as `pktA`. -/
def pktB : Packet :=
  { timestamp := 50
    data := List.replicate 40 0
    linkLayer := some ⟨"Ethernet", ⟨"bb:bb:bb:bb:bb:bb", "aa:aa:aa:aa:aa:aa", 7⟩⟩
    networkLayer := some ⟨"IPv4", ⟨"10.0.0.2", "10.0.0.1", 11⟩⟩
    transportLayer := some ⟨"TCP", ⟨"80", "5000", 13⟩⟩
    applicationLayer := none }

/-- A reply to `pktA` that carries the same timestamp as `pktA`. -/
def pktTie : Packet := { pktB with timestamp := 100 }

/-- A packet with all four layers and 5 bytes of application payload. -/
def pktApp : Packet :=
  { pktA with
    data := List.replicate 65 0
    applicationLayer := some ⟨"Payload", List.replicate 5 0⟩ }

/-- The addresses of the connections the map holds. -/
def itemPtrs (cd : ConnectionDecoder) : List Nat := cd.Items.map fun e => e.2.ptr

/-- The addresses of the connections written to the sink, oldest first. -/
def writtenPtrs (cd : ConnectionDecoder) : List Nat := cd.writer.records.map Conn.ptr

/-- The record the tracker holds for the flow of packet `p`, if any. -/
def tracked (cd : ConnectionDecoder) (p : Packet) : Option Connection :=
  (lookupConn cd.Items (connIDOf p).String).map Conn.Connection

/-- The addresses in the map followed by the addresses written are a
rearrangement of the addresses allocated so far. -/
def Accounted (cd : ConnectionDecoder) : Prop :=
  (itemPtrs cd ++ writtenPtrs cd).Perm (List.range cd.allocs)

/-- The error `DeInit` returns: nil on both paths (a failed write ends the
process inside `writeConn`, it is not returned). -/
def DeInit.error (_c : Config) (cd : ConnectionDecoder) : Option String :=
  if !cd.writer.IsChanWriter then none else none

/-- The key and the address of every map entry, in map order. -/
def itemIds (cd : ConnectionDecoder) : List (String × Nat) :=
  cd.Items.map fun e => (e.1, e.2.ptr)

/-- The flow hash a layer contributes to the `ConnectionID`: the `FastHash`
of its flow, or 0 when the layer is missing. -/
def layerHash (l : Option FlowLayer) : UInt64 :=
  match l with
  | some l => l.flow.fastHash
  | none => 0

/-- A later packet of the flow of `pktA`, in the direction of `pktA`:
`ts=200`, 10 bytes. -/
def pktLate : Packet := { pktA with timestamp := 200, data := List.replicate 10 0 }

/-- A configuration that sweeps on every new connection, with a timeout of
one second. -/
def sweepAlways : Config := ⟨1, 1000000000, false⟩

/-- The configuration of the age-based flush scenario: `ConnFlushInterval=2`,
`ConnTimeOut=1s`. -/
def flushScenario : Config := ⟨2, 1000000000, false⟩

/-- Flow F1 of the age-based flush scenario, at `t=0`. -/
def pktF1 : Packet :=
  { timestamp := 0
    data := List.replicate 60 0
    linkLayer := none
    networkLayer := some ⟨"IPv4", ⟨"10.0.0.1", "10.0.0.2", 21⟩⟩
    transportLayer := some ⟨"TCP", ⟨"5001", "80", 31⟩⟩
    applicationLayer := none }

/-- Flow F2 of the age-based flush scenario, at `t=0`. -/
def pktF2 : Packet :=
  { timestamp := 0
    data := List.replicate 60 0
    linkLayer := none
    networkLayer := some ⟨"IPv4", ⟨"10.0.0.3", "10.0.0.4", 22⟩⟩
    transportLayer := some ⟨"TCP", ⟨"5002", "80", 32⟩⟩
    applicationLayer := none }

/-- Flow F3 of the age-based flush scenario, at `t=10s`. -/
def pktF3 : Packet :=
  { timestamp := 10000000000
    data := List.replicate 60 0
    linkLayer := none
    networkLayer := some ⟨"IPv4", ⟨"10.0.0.5", "10.0.0.6", 23⟩⟩
    transportLayer := some ⟨"TCP", ⟨"5003", "80", 33⟩⟩
    applicationLayer := none }

/-- A packet whose link and network flow hashes are 1111111111111111111 and
12222222222222222222. -/
def pktX : Packet :=
  { timestamp := 100
    data := List.replicate 60 0
    linkLayer := some ⟨"Ethernet", ⟨"aa:aa:aa:aa:aa:aa", "bb:bb:bb:bb:bb:bb", 1111111111111111111⟩⟩
    networkLayer := some ⟨"IPv4", ⟨"10.0.0.1", "10.0.0.2", 12222222222222222222⟩⟩
    transportLayer := some ⟨"TCP", ⟨"5000", "80", 3⟩⟩
    applicationLayer := none }

/-- A packet of other hosts whose link and network flow hashes are
11111111111111111111 and 2222222222222222222. -/
def pktY : Packet :=
  { timestamp := 200
    data := List.replicate 40 0
    linkLayer := some ⟨"Ethernet", ⟨"cc:cc:cc:cc:cc:cc", "dd:dd:dd:dd:dd:dd", 11111111111111111111⟩⟩
    networkLayer := some ⟨"IPv4", ⟨"192.168.0.1", "192.168.0.2", 2222222222222222222⟩⟩
    transportLayer := some ⟨"TCP", ⟨"5000", "80", 3⟩⟩
    applicationLayer := none }

/-- The tracker after `pktA` and `pktLate`, with the flush switched off. -/
def trackerAL : ConnectionDecoder :=
  feed sampleHelpers noFlush (connectionDecoder false) [pktA, pktLate]

/-- The connection `trackerAL` holds: the one created by `pktA` and updated by
`pktLate`. -/
def connAL : Conn :=
  ⟨0, updateConnection sampleHelpers (createConnection sampleHelpers pktA) pktLate⟩

/-- The tracker after two packets of F1 (`t=0`) and two packets of F3
(`t=10s`), with the flush switched off: two connections, each with both
timestamps set. -/
def trackerF13 : ConnectionDecoder :=
  feed sampleHelpers noFlush (connectionDecoder false) [pktF1, pktF1, pktF3, pktF3]

/-- A packet of flow F2 at `t=10.5s`. -/
def pktF2Late : Packet := { pktF2 with timestamp := 10500000000 }

/-- Every connection in the map and every connection in the sink has the
`UID` of the empty record. -/
def UidInv (h : Helpers) (cd : ConnectionDecoder) : Prop :=
  (∀ e ∈ cd.Items, e.2.Connection.UID = h.calcMd5 (h.connString {})) ∧
    (∀ r ∈ cd.writer.records, r.Connection.UID = h.calcMd5 (h.connString {}))

/-- A full-size packet of the flow of `pktA`, in the direction of `pktA`:
`ts=150`, 65535 bytes. -/
def pktBulk : Packet := { pktA with timestamp := 150, data := List.replicate 65535 0 }

/-- A small packet of the flow of `pktA`, in the direction of `pktA`:
`ts=150`, 1 byte. -/
def pktMid : Packet := { pktA with timestamp := 150, data := [0] }

/-! ## The TLS server hello encoder (`encoder/tlsServerHello.go`) -/

/-- A `tlsx.ServerHello`, as far as the encoder reads it. -/
structure ServerHello where
  Vers : UInt16
  Random : List UInt8
  SessionID : List UInt8
  CipherSuite : UInt16
  CompressionMethod : UInt8
  NextProtoNeg : Bool
  NextProtos : List String
  OCSPStapling : Bool
  TicketSupported : Bool
  SecureRenegotiationSupported : Bool
  SecureRenegotiation : List UInt8
  AlpnProtocol : String
  Ems : Bool
  Scts : List (List UInt8)
  SupportedVersion : UInt16
  SelectedIdentityPresent : Bool
  SelectedIdentity : UInt16
  Cookie : List UInt8
  SelectedGroup : UInt16
  Extensions : List UInt16
  deriving DecidableEq, Repr

/-- The `types.TLSServerHello` audit record with the fields the encoder
sets. -/
structure TLSServerHello where
  Timestamp : String
  Version : Int
  Random : List UInt8
  SessionID : List UInt8
  CipherSuite : Int
  CompressionMethod : Int
  NextProtoNeg : Bool
  NextProtos : List String
  OCSPStapling : Bool
  TicketSupported : Bool
  SecureRenegotiationSupported : Bool
  SecureRenegotiation : List UInt8
  AlpnProtocol : String
  Ems : Bool
  Scts : List (List UInt8)
  SupportedVersion : Int
  SelectedIdentityPresent : Bool
  SelectedIdentity : Int
  Cookie : List UInt8
  SelectedGroup : Int
  Ja3S : String
  SrcIP : String
  DstIP : String
  SrcMAC : String
  DstMAC : String
  SrcPort : Int
  DstPort : Int
  Extensions : List Int
  deriving DecidableEq, Repr

/-- What the encoder calls outside its file: `tlsx.GetServerHello`,
`utils.TimeToString` and `ja3.DigestHexJa3s`. -/
structure EncoderHelpers where
  GetServerHello : Packet → Option ServerHello
  TimeToString : Time → String
  DigestHexJa3s : ServerHello → String

/-- The message of the run-time panic Go raises when a method is called on a
nil interface value. -/
def nilPointerDereference : String :=
  "runtime error: invalid memory address or nil pointer dereference"

/-- Go's `strconv.Atoi` with the error dropped, as the encoder calls it: the
number read from an optionally signed string of decimal digits, clamped to
the range of `int`; 0 when the string is not of that form. -/
def Atoi (s : String) : Int :=
  let clamp (x : Int) : Int :=
    if x < -9223372036854775808 then -9223372036854775808
    else if x > 9223372036854775807 then 9223372036854775807
    else x
  match s.data with
  | [] => 0
  | '+' :: ds => if ds = [] then 0 else clamp (((parseDigits ds 0).getD 0 : Nat) : Int)
  | '-' :: ds => if ds = [] then 0 else clamp (-(((parseDigits ds 0).getD 0 : Nat) : Int))
  | ds => clamp (((parseDigits ds 0).getD 0 : Nat) : Int)

/-- The flow of a layer the packet may lack: calling `LinkFlow()`,
`NetworkFlow()` or `TransportFlow()` on a nil layer panics. -/
def layerFlow (l : Option FlowLayer) : Except String Flow :=
  match l with
  | some l => Except.ok l.flow
  | none => Except.error nilPointerDereference

/-- The handler of `tlsServerHelloEncoder`: a panic, no record, or the
record. The operands are evaluated in the order of the source. -/
def tlsServerHelloEncoder (e : EncoderHelpers) (p : Packet) :
    Except String (Option TLSServerHello) :=
  match e.GetServerHello p with
  | some hello => do
    let extensions := hello.Extensions.map fun v => wrapInt32 v.toNat
    let srcPort := Atoi (← layerFlow p.transportLayer).src
    let dstPort := Atoi (← layerFlow p.transportLayer).src
    let timestamp := e.TimeToString p.timestamp
    let ja3S := e.DigestHexJa3s hello
    let srcIP := (← layerFlow p.networkLayer).src
    let dstIP := (← layerFlow p.networkLayer).dst
    let srcMAC := (← layerFlow p.linkLayer).src
    let dstMAC := (← layerFlow p.linkLayer).dst
    pure (some
      { Timestamp := timestamp
        Version := wrapInt32 hello.Vers.toNat
        Random := hello.Random
        SessionID := hello.SessionID
        CipherSuite := wrapInt32 hello.CipherSuite.toNat
        CompressionMethod := wrapInt32 hello.CompressionMethod.toNat
        NextProtoNeg := hello.NextProtoNeg
        NextProtos := hello.NextProtos
        OCSPStapling := hello.OCSPStapling
        TicketSupported := hello.TicketSupported
        SecureRenegotiationSupported := hello.SecureRenegotiationSupported
        SecureRenegotiation := hello.SecureRenegotiation
        AlpnProtocol := hello.AlpnProtocol
        Ems := hello.Ems
        Scts := hello.Scts
        SupportedVersion := wrapInt32 hello.SupportedVersion.toNat
        SelectedIdentityPresent := hello.SelectedIdentityPresent
        SelectedIdentity := wrapInt32 hello.SelectedIdentity.toNat
        Cookie := hello.Cookie
        SelectedGroup := wrapInt32 hello.SelectedGroup.toNat
        Ja3S := ja3S
        SrcIP := srcIP
        DstIP := dstIP
        SrcMAC := srcMAC
        DstMAC := dstMAC
        SrcPort := wrapInt32 srcPort
        DstPort := wrapInt32 dstPort
        Extensions := extensions })
  | none => pure none

/-- A server hello (TLS 1.2, one extension). -/
def sampleHello : ServerHello :=
  { Vers := 771, Random := [], SessionID := [], CipherSuite := 49199, CompressionMethod := 0
    NextProtoNeg := false, NextProtos := [], OCSPStapling := false, TicketSupported := false
    SecureRenegotiationSupported := true, SecureRenegotiation := [], AlpnProtocol := "h2"
    Ems := false, Scts := [], SupportedVersion := 0, SelectedIdentityPresent := false
    SelectedIdentity := 0, Cookie := [], SelectedGroup := 0, Extensions := [65281] }

/-- Encoder helpers for the sample inputs: the parser finds `sampleHello` in
the packet (it stands for `tlsx.GetServerHello` on a packet that carries this
hello), the time is written as in `TimeToString`, and the JA3S digest, which
no statement below reads, is a constant. -/
def sampleEncoderHelpers : EncoderHelpers := ⟨fun _ => some sampleHello, TimeToString, fun _ => ""⟩

/-- A packet of a TLS server: `93.184.216.34:443 -> 10.0.0.5:51000`. -/
def pktHello : Packet :=
  { timestamp := 100
    data := List.replicate 120 0
    linkLayer := some ⟨"Ethernet", ⟨"aa:aa:aa:aa:aa:aa", "bb:bb:bb:bb:bb:bb", 7⟩⟩
    networkLayer := some ⟨"IPv4", ⟨"93.184.216.34", "10.0.0.5", 11⟩⟩
    transportLayer := some ⟨"TCP", ⟨"443", "51000", 13⟩⟩
    applicationLayer := some ⟨"Payload", List.replicate 66 0⟩ }

/-- The packet `pktHello` as read from a capture without link layer (raw
IP). -/
def pktHelloRawIP : Packet := { pktHello with linkLayer := none }

/-! ## The vulnerability transform (`cmd/transform/ToSoftwareVulnerabilities.go`) -/

/-- The `types.Software` message inside a vulnerability, as far as the
transform reads it. -/
structure Software where
  Product : String
  Version : String
  Flows : List String
  deriving DecidableEq, Repr

/-- The `types.Vulnerability` audit record, as far as the transform reads
it. -/
structure Vulnerability where
  Timestamp : Int
  ID : String
  Description : String
  Notes : String
  Software : Software
  deriving DecidableEq, Repr

/-- One `AddProperty` call on a maltego entity. -/
structure EntityProperty where
  name : String
  displayName : String
  matchingRule : String
  value : String
  deriving DecidableEq, Repr

/-- The maltego entity a transform adds: the arguments of
`AddEntityWithPath`, then the `AddProperty` and `AddDisplayInformation` calls
in order. -/
structure Entity where
  entityType : String
  value : String
  path : String
  properties : List EntityProperty
  displayInformation : List (String × String)
  deriving DecidableEq, Repr

/-- Go's `len` of a string: its number of bytes. -/
def len (s : String) : Nat := s.utf8ByteSize

/-- The callback `toSoftwareVulnerabilities` passes to
`maltego.VulnerabilityTransform`, as the entity it adds for the record `vuln`.
`utils.UnixTimeToUTC` and the constant `maltego.Strict` are parameters. -/
def toSoftwareVulnerabilities (UnixTimeToUTC : Int → String) (Strict : String)
    (vuln : Vulnerability) (path : String) : Entity :=
  let val := vuln.ID
  let product := vuln.Software.Product ++ " / " ++ vuln.Software.Version
  let val := if len product > 0 then val ++ ("\n" ++ product) else val
  { entityType := "netcap.Vulnerability"
    value := val
    path := path
    properties :=
      [⟨"timestamp", "Timestamp", Strict, UnixTimeToUTC vuln.Timestamp⟩,
       ⟨"id", "ID", Strict, vuln.ID⟩,
       ⟨"notes", "Notes", Strict, vuln.Notes⟩,
       ⟨"flows", "flows", Strict, String.intercalate "," vuln.Software.Flows⟩,
       ⟨"software", "Software", Strict,
         vuln.Software.Product ++ " " ++ vuln.Software.Version⟩]
    displayInformation :=
      [(vuln.Description, "Description"),
       (String.intercalate "<br>" vuln.Software.Flows, "Flows")] }

/-! ## The table of additional entities (`maltego/entity_test.go`) -/

/-- A `PropertyField`, as the call that builds it: `newRequiredStringField`
with its name and description. -/
structure PropertyField where
  name : String
  description : String
  deriving DecidableEq, Repr

/-- The call `newRequiredStringField(name, description)`. -/
def newRequiredStringField (name description : String) : PropertyField := ⟨name, description⟩

/-- An `EntityCoreInfo`: the fields in the order in which
`TestGenerateAllEntities` passes them to `genEntity`. -/
structure EntityCoreInfo where
  Name : String
  Icon : String
  Description : String
  Parent : String
  Fields : List PropertyField
  deriving DecidableEq, Repr

/-- The table `entities`, entry by entry as in the source. -/
def entities : List EntityCoreInfo :=
  [⟨"CaptureProcess", "remove_red_eye", "An operating system NETCAP process that captures traffic from a network interface", "", []⟩,
   ⟨"ContentType", "category", "A MIME type describes different multi-media formats", "", []⟩,
   ⟨"Credentials", "security", "Credentials for accessing services that require user authentication", "netcap.IPAddr", []⟩,
   ⟨"Email", "mail_outline", "An email message", "maltego.Email", []⟩,
   ⟨"Interface", "router", "A network interface", "", [newRequiredStringField "name" "Name of the network interface"]⟩,
   ⟨"PCAP", "sd_storage", "A packet capture dump file", "", [newRequiredStringField "path" "Absolute path to the PCAP file"]⟩,
   ⟨"Device", "devices", "A device seen on the network", "", []⟩,
   ⟨"FileType", "insert_chart", "The type of file based on its contents", "", []⟩,
   ⟨"IPAddr", "router", "An internet protocol (IP) network address", "maltego.IPv4Address", []⟩,
   ⟨"InternalSourceIP", "cloud_upload", "An internal source address", "netcap.IPAddr", []⟩,
   ⟨"ExternalSourceIP", "cloud_upload", "An external source address", "netcap.IPAddr", []⟩,
   ⟨"InternalDestinationIP", "cloud_download", "An internal destination address", "netcap.IPAddr", []⟩,
   ⟨"ExternalDestinationIP", "cloud_download", "An external destination address", "netcap.IPAddr", []⟩,
   ⟨"DHCPClient", "cast_connected", "A DHCP client", "", []⟩,
   ⟨"DHCPResult", "fingerprint", "A DHCP fingerprint result", "", []⟩,
   ⟨"DestinationPort", "local_convenience_store", "A TCP / UDP destination port", "", []⟩,
   ⟨"SourcePort", "local_convenience_store", "A TCP / UDP source port", "", []⟩,
   ⟨"HTTPCookie", "settings_input_svideo", "A HTTP session cookie", "", []⟩,
   ⟨"HTTPParameter", "live_help", "", "A HTTP request parameter name", []⟩,
   ⟨"HTTPParameterValue", "settings_ethernet", "A HTTP request parameter value", "", []⟩,
   ⟨"HTTPStatusCode", "highlight", "A HTTP server response code", "", []⟩,
   ⟨"ServerName", "scanner", "A network server software name", "", []⟩,
   ⟨"SSHClient", "call_made", "A Secure Shell Protocol Client", "", []⟩,
   ⟨"SSHServer", "call_received", "A Secure Shell Protocol Server", "", []⟩,
   ⟨"TCPService", "device_hub", "A TCP network service", "", []⟩,
   ⟨"UDPService", "developer_board", "A UDP network service", "", []⟩,
   ⟨"UserAgent", "supervisor_account", "A HTTP User Agent", "", []⟩,
   ⟨"Website", "web", "A HTTP Website", "maltego.Website", []⟩,
   ⟨"DNSName", "dns", "A DNS Name", "maltego.DNSName", []⟩,
   ⟨"File", "insert_drive_file", "A file", "maltego.File", []⟩,
   ⟨"Domain", "domain", "A domain", "maltego.Domain", []⟩,
   ⟨"Location", "location_on", "A location", "maltego.Location", []⟩,
   ⟨"URL", "open_in_browser", "A Uniform Resource Identifier", "maltego.URL", []⟩,
   ⟨"HTTPCookieValue", "info", "A HTTP cookie value", "", []⟩,
   ⟨"ExifEntry", "info", "An Exif entry for an image file", "", []⟩,
   ⟨"MD5Hash", "info", "An MD5 hash entry for an extracted file", "maltego.Hash", []⟩,
   ⟨"PhoneNumber", "contact_phone", "A phone number", "maltego.PhoneNumber", []⟩]

/-- Go's `strings.HasPrefix(s, pre)`. -/
def HasPrefix (s pre : String) : Bool := pre.data.isPrefixOf s.data

/-- Well-formedness of a table entry as the specification words it: the
description is non-empty, and the parent is empty, or starts with "maltego.",
or is "netcap." followed by the name of an entry of the table. -/
def EntityCoreInfo.wellFormed (table : List EntityCoreInfo) (e : EntityCoreInfo) : Bool :=
  decide (e.Description ≠ "") &&
    (decide (e.Parent = "") || HasPrefix e.Parent "maltego." ||
      table.any fun x => decide (e.Parent = "netcap." ++ x.Name))

/-! ## The audit record transforms (`maltego/service.go`, `maltego/software.go`) -/

/-- The `types.Type` of a file header, as far as the transforms compare it. -/
inductive RecordType
  | NC_Service
  | NC_Software
  | NC_Other (id : Nat)
  deriving DecidableEq, Repr

/-- How a transform ends when it does not complete: `log.Fatal`, a Go panic,
or the helper `die`. -/
inductive Failure
  | fatal (msg : String)
  | panicked (msg : String)
  | died (msg detail : String)
  deriving DecidableEq, Repr

/-- What one call of `r.Next` yields before the end of the file: a record,
`io.ErrUnexpectedEOF`, or another error. -/
inductive NextResult (R : Type)
  | record (r : R)
  | unexpectedEOF
  | failed (err : String)
  deriving DecidableEq, Repr

/-- The audit record file a transform is pointed at (for `SoftwareTransform`,
the file its path argument denotes after the adjustment of lines 49-51):
whether opening it fails, its name, whether opening it as an archive fails,
whether reading the header fails, the type in its header, what the
successive `Next` calls yield before `io.EOF`, and whether `Close` fails. -/
structure AuditFile (R : Type) where
  openError : Option String
  name : String
  archiveError : Option String
  headerError : Option String
  headerType : RecordType
  records : List (NextResult R)
  closeError : Option String

/-- The steps of a transform that touch the file or call back: `ReadHeader`,
`Next`, the `count` and `transform` callbacks with the record (and the bounds
passed to `transform`), `Close`, the log line of a failed `Close`, and the
final output. -/
inductive TransformEvent (R : Type)
  | readHeader
  | next
  | count (r : R)
  | transform (r : R) (min max : Nat)
  | close
  | logCloseFailed (err : String)
  | output
  deriving DecidableEq, Repr

/-- Go's `strings.HasSuffix(s, suf)`. -/
def HasSuffix (s suf : String) : Bool := suf.data.isSuffixOf s.data

/-- The counting loop of a transform: `Next` until the end of the file, the
`count` callback on every record; `onError` is what a read error other than
`io.EOF` and `io.ErrUnexpectedEOF` leads to. -/
def countLoop {R : Type} (count : R → String → Nat × Nat → Nat × Nat) (mac : String)
    (onError : String → Failure) :
    List (NextResult R) → Nat × Nat → List (TransformEvent R) →
      List (TransformEvent R) × Except Failure (Nat × Nat)
  | [], mm, ev => (ev ++ [TransformEvent.next], Except.ok mm)
  | NextResult.unexpectedEOF :: _, mm, ev => (ev ++ [TransformEvent.next], Except.ok mm)
  | NextResult.failed err :: _, _, ev => (ev ++ [TransformEvent.next], Except.error (onError err))
  | NextResult.record r :: rest, mm, ev =>
    countLoop count mac onError rest (count r mac mm)
      (ev ++ [TransformEvent.next, TransformEvent.count r])

/-- The transform loop: `Next` until the end of the file, the `transform`
callback on every record; a read error other than `io.EOF` and
`io.ErrUnexpectedEOF` is a panic. -/
def transformLoop {R : Type} (mm : Nat × Nat) :
    List (NextResult R) → List (TransformEvent R) →
      List (TransformEvent R) × Except Failure Unit
  | [], ev => (ev ++ [TransformEvent.next], Except.ok ())
  | NextResult.unexpectedEOF :: _, ev => (ev ++ [TransformEvent.next], Except.ok ())
  | NextResult.failed err :: _, ev =>
    (ev ++ [TransformEvent.next], Except.error (Failure.panicked err))
  | NextResult.record r :: rest, ev =>
    transformLoop mm rest (ev ++ [TransformEvent.next, TransformEvent.transform r mm.1 mm.2])

/-- `r.Close()` and the log line when it fails. -/
def closeEvents {R : Type} (file : AuditFile R) : List (TransformEvent R) :=
  match file.closeError with
  | some err => [TransformEvent.close, TransformEvent.logCloseFailed err]
  | none => [TransformEvent.close]

/-- The part of both transforms after the header check: the type assertion,
the counting pass when `count` is not nil, the second pass with the
`transform` callback, and the output. -/
def transformPasses {R : Type} (implementsAuditRecord : Bool)
    (count : Option (R → String → Nat × Nat → Nat × Nat)) (mac : String)
    (onCountError : String → Failure) (file : AuditFile R) (ev : List (TransformEvent R)) :
    List (TransformEvent R) × Except Failure Unit :=
  if !implementsAuditRecord then
    (ev, Except.error (Failure.panicked "type does not implement types.AuditRecord interface"))
  else
    let counted : List (TransformEvent R) × Except Failure (Nat × Nat) :=
      match count with
      | some f =>
        match countLoop f mac onCountError file.records (10000000, 0) ev with
        | (ev, Except.ok mm) => (ev ++ closeEvents file, Except.ok mm)
        | (ev, Except.error e) => (ev, Except.error e)
      | none => (ev, Except.ok (10000000, 0))
    match counted with
    | (ev, Except.error e) => (ev, Except.error e)
    | (ev, Except.ok mm) =>
      match file.archiveError with
      | some err => (ev, Except.error (Failure.panicked err))
      | none =>
        match transformLoop mm file.records (ev ++ [TransformEvent.readHeader]) with
        | (ev, Except.error e) => (ev, Except.error e)
        | (ev, Except.ok ()) => (ev ++ closeEvents file ++ [TransformEvent.output], Except.ok ())

/-- `ServiceTransform`: the steps it takes and how it ends. `typeString` is
`header.Type.String()`; `ReadHeader` returns no error in this file, a header
that cannot be read ends the process inside it. -/
def ServiceTransform {R : Type} (typeString : RecordType → String)
    (implementsAuditRecord : Bool) (count : Option (R → String → Nat × Nat → Nat × Nat))
    (mac : String) (file : AuditFile R) : List (TransformEvent R) × Except Failure Unit :=
  match file.openError with
  | some err => ([], Except.error (Failure.fatal err))
  | none =>
    if !HasSuffix file.name ".ncap.gz" && !HasSuffix file.name ".ncap" then
      ([], Except.error (Failure.fatal "input file must be an audit record file"))
    else
      match file.archiveError with
      | some err => ([], Except.error (Failure.panicked err))
      | none =>
        match file.headerError with
        | some err => ([TransformEvent.readHeader], Except.error (Failure.fatal err))
        | none =>
          if file.headerType ≠ RecordType.NC_Service then
            ([TransformEvent.readHeader], Except.error (Failure.panicked
              ("file does not contain Service records: " ++ typeString file.headerType)))
          else
            transformPasses implementsAuditRecord count mac Failure.panicked file
              [TransformEvent.readHeader]

/-- `SoftwareTransform`: the steps it takes and how it ends. The constants
`defaults.FileExtensionCompressed`, `defaults.FileExtension`,
`errUnexpectedFileType` and `errUnexpectedReadFailure` are parameters; the
helpers `openFile` and `openNetcapArchive` end the process when they fail. -/
def SoftwareTransform {R : Type} (typeString : RecordType → String)
    (FileExtensionCompressed FileExtension errUnexpectedFileType
      errUnexpectedReadFailure : String)
    (implementsAuditRecord : Bool) (count : Option (R → String → Nat × Nat → Nat × Nat))
    (mac : String) (file : AuditFile R) : List (TransformEvent R) × Except Failure Unit :=
  match file.openError with
  | some err => ([], Except.error (Failure.fatal err))
  | none =>
    if !HasSuffix file.name FileExtensionCompressed && !HasSuffix file.name FileExtension then
      ([], Except.error (Failure.died errUnexpectedFileType file.name))
    else
      match file.archiveError with
      | some err => ([], Except.error (Failure.fatal err))
      | none =>
        match file.headerError with
        | some err =>
          ([TransformEvent.readHeader], Except.error (Failure.died "failed to read file header" err))
        | none =>
          if file.headerType ≠ RecordType.NC_Software then
            ([TransformEvent.readHeader], Except.error (Failure.died
              "file does not contain Software records" (typeString file.headerType)))
          else
            transformPasses implementsAuditRecord count mac
              (fun err => Failure.died err errUnexpectedReadFailure) file
              [TransformEvent.readHeader]

/-- The records a transform was called back for: the events that are a
`count` or a `transform` call, or a `Next` read. -/
def TransformEvent.touchesRecord {R : Type} : TransformEvent R → Bool
  | TransformEvent.next => true
  | TransformEvent.count _ => true
  | TransformEvent.transform _ _ _ => true
  | _ => false

/-- An audit record file of Software records, with two records. -/
def softwareFile : AuditFile Nat :=
  { openError := none, name := "Software.ncap.gz", archiveError := none, headerError := none
    headerType := RecordType.NC_Software
    records := [NextResult.record 1, NextResult.record 2], closeError := none }

/-- An audit record file of Service records, with two records. -/
def serviceFile : AuditFile Nat := { softwareFile with name := "Service.ncap.gz", headerType := RecordType.NC_Service }

/-- A rendering of the header type for the sample runs. -/
def sampleTypeString : RecordType → String
  | RecordType.NC_Service => "NC_Service"
  | RecordType.NC_Software => "NC_Software"
  | RecordType.NC_Other _ => "NC_Other"

/-! ## The TCP stream processor (`decoder/tcpStreamProcessor.go`) -/

/-- A non-nil `streamReader`, as what its methods return to the worker:
`Saved()`, `IsClient()`, `ConversationRaw()`, `ConversationColored()`,
`Ident()`, `FirstPacket()` and `Transport()`. -/
structure StreamReader where
  Saved : Bool
  IsClient : Bool
  ConversationRaw : List UInt8
  ConversationColored : List UInt8
  Ident : String
  FirstPacket : Time
  Transport : Flow
  deriving DecidableEq, Repr

/-- The `tcpStreamProcessor`. A worker channel is the list of the values sent
to it, oldest first (a nil `streamReader` is `none`); the wait group is its
counter. Channels are taken to have room: a send never blocks. -/
structure tcpStreamProcessor where
  workers : List (List (Option StreamReader))
  numWorkers : Int
  next : Int
  wg : Int
  numDone : Int
  numTotal : Int
  streamBufferSize : Int
  deriving DecidableEq, Repr

/-- `handleStream`; `none` is the index-out-of-range panic of
`tsp.workers[tsp.next]`. -/
def handleStream (tsp : tcpStreamProcessor) (s : Option StreamReader) :
    Option tcpStreamProcessor :=
  let tsp := { tsp with wg := tsp.wg + 1 }
  if 0 ≤ tsp.next ∧ tsp.next < tsp.workers.length then
    let tsp := { tsp with
      workers := tsp.workers.set tsp.next.toNat (tsp.workers.getD tsp.next.toNat [] ++ [s]) }
    if tsp.numWorkers = wrapInt64 (tsp.next + 1) then
      some { tsp with next := 0 }
    else
      some { tsp with next := wrapInt64 (tsp.next + 1) }
  else none

/-- `initWorkers`: 1000 workers, each with an empty channel. -/
def initWorkers (tsp : tcpStreamProcessor) (streamBufferSize : Int) : tcpStreamProcessor :=
  let tsp := { tsp with streamBufferSize := streamBufferSize }
  let tsp := { tsp with workers := List.replicate 1000 [] }
  { tsp with numWorkers := tsp.workers.length }

/-- A sequence of `handleStream` calls, in order. -/
def handleStreams : tcpStreamProcessor → List (Option StreamReader) → Option tcpStreamProcessor
  | tsp, [] => some tsp
  | tsp, s :: ss => (handleStream tsp s).bind fun tsp => handleStreams tsp ss

/-- What a worker does that can be observed: the calls of `saveConnection`,
`SortAndMergeFragments` and `saveTCPServiceBanner` with their arguments, the
print of a failed save, the `streamProcessingTime` gauge that is set (by its
direction label; the measured time is not modelled), the progress line (with
`numDone` and `numTotal`), and `wg.Done()`. -/
inductive WorkerEvent
  | saveConnection (raw colored : List UInt8) (ident : String) (firstPacket : Time)
      (transport : Flow)
  | printFailed (err : String)
  | setProcessingTime (direction : String)
  | SortAndMergeFragments (s : StreamReader)
  | saveTCPServiceBanner (s : StreamReader)
  | progress (numDone numTotal : Int)
  | Done
  deriving DecidableEq, Repr

/-- Whether the event is one of the three calls that save a stream. -/
def WorkerEvent.isSaveCall : WorkerEvent → Bool
  | WorkerEvent.saveConnection _ _ _ _ _ => true
  | WorkerEvent.SortAndMergeFragments _ => true
  | WorkerEvent.saveTCPServiceBanner _ => true
  | _ => false

/-- What a worker reads from outside the file: the error `saveConnection`
returns (nil is `none`), `conf.Quiet`, and the two direction labels
`reassembly.TCPDirClientToServer.String()` and
`reassembly.TCPDirServerToClient.String()`. -/
structure WorkerEnv where
  saveConnection : List UInt8 → List UInt8 → String → Time → Flow → Option String
  Quiet : Bool
  clientToServer : String
  serverToClient : String

/-- The state the workers share and what they have done so far: the counter
of the wait group, `tsp.numDone`, and the events in the order they
happened. -/
structure WorkerState where
  wg : Int
  numDone : Int
  events : List WorkerEvent
  deriving DecidableEq, Repr

/-- `wg.Done()`: the counter goes down by one; `none` is the panic of a
counter that would become negative. -/
def wgDone (st : WorkerState) : Option WorkerState :=
  if st.wg - 1 < 0 then none
  else some { st with wg := st.wg - 1, events := st.events ++ [WorkerEvent.Done] }

/-- The body of the worker loop for a non-nil stream `s`. -/
def processStream (env : WorkerEnv) (numTotal : Int) (st : WorkerState) (s : StreamReader) :
    Option WorkerState :=
  if s.Saved then wgDone st
  else
    let st :=
      if s.IsClient then
        let err := env.saveConnection s.ConversationRaw s.ConversationColored s.Ident
          s.FirstPacket s.Transport
        let st := { st with events := st.events ++
          [WorkerEvent.saveConnection s.ConversationRaw s.ConversationColored s.Ident
            s.FirstPacket s.Transport] }
        let st := match err with
          | some e => { st with events := st.events ++ [WorkerEvent.printFailed e] }
          | none => st
        { st with events := st.events ++ [WorkerEvent.setProcessingTime env.clientToServer] }
      else
        let st := { st with events := st.events ++ [WorkerEvent.SortAndMergeFragments s] }
        let st := { st with events := st.events ++ [WorkerEvent.saveTCPServiceBanner s] }
        { st with events := st.events ++ [WorkerEvent.setProcessingTime env.serverToClient] }
    let st := { st with numDone := wrapInt64 (st.numDone + 1) }
    let st :=
      if !env.Quiet then
        { st with events := st.events ++ [WorkerEvent.progress st.numDone numTotal] }
      else st
    wgDone st

/-- The goroutine of `streamWorker` run on what its channel holds: it handles
the streams in order and returns at the first nil; when the channel is
drained it waits, and nothing more happens. -/
def streamWorker (env : WorkerEnv) (numTotal : Int) :
    WorkerState → List (Option StreamReader) → Option WorkerState
  | st, [] => some st
  | st, none :: _ => some st
  | st, some s :: rest => (processStream env numTotal st s).bind fun st =>
      streamWorker env numTotal st rest

/-- All workers of the pool run on their channels, one worker after the
other. -/
def runWorkers (env : WorkerEnv) (numTotal : Int) :
    WorkerState → List (List (Option StreamReader)) → Option WorkerState
  | st, [] => some st
  | st, q :: qs => (streamWorker env numTotal st q).bind fun st => runWorkers env numTotal st qs

/-- The zero value of the processor, before `initWorkers`. -/
def newProcessor : tcpStreamProcessor := ⟨[], 0, 0, 0, 0, 0, 0⟩

/-- A client side stream that is not saved yet. -/
def clientStream : StreamReader :=
  ⟨false, true, [1, 2, 3], [4, 5], "10.0.0.1:5000->10.0.0.2:80", 100, ⟨"5000", "80", 13⟩⟩

/-- A server side stream that is not saved yet. -/
def serverStream : StreamReader := { clientStream with IsClient := false }

/-- A stream that was saved by its cleanup function already. -/
def savedStream : StreamReader := { clientStream with Saved := true }

/-- A worker environment in which `saveConnection` fails and progress is
printed. -/
def sampleWorkerEnv : WorkerEnv := ⟨fun _ _ _ _ _ => some "disk full", false, "client->server", "server->client"⟩

/-! ## The tracker with its background flush tasks

`flush` above takes the writes of the background task at the moment the task
is spawned. The source only spawns the task (`go func() { ... }()`, lines
208-213) and `Destroy` closes the writer without waiting for it, so what a
task has written when the writer is closed depends on the schedule. The
definitions below keep the tasks apart from the sink. -/

/-- The tracker and the background tasks its flushes have spawned: `cd` is the
decoder, whose sink holds what was written by the caller itself, and `tasks`
holds, oldest first, the selection (`selectConns`) each spawned task is to
write. -/
structure Tracker where
  cd : ConnectionDecoder
  tasks : List (List Conn)

/-- The tracker before the first packet, with no task spawned. -/
def Tracker.start (isChanWriter : Bool) : Tracker :=
  { cd := connectionDecoder isChanWriter
    tasks := [] }

/-- `handlePacket`, with the flush as the source has it: the entries that
satisfy `flushCond` are collected and deleted from the map, and a background
task is spawned to write them; nothing is written before `handlePacket`
returns. -/
def handlePacketSpawning (h : Helpers) (c : Config) (t : Tracker) (p : Packet) : Tracker :=
  let connID := connIDOf p
  match lookupConn t.cd.Items connID.String with
  | some conn =>
    { t with
      cd := { t.cd with Items := storeConn t.cd.Items connID.String (updateConnection h conn.Connection p) } }
  | none =>
    let cd := insertConnection h t.cd connID.String p
    let conns := cd.numConns
    if c.ConnFlushInterval ≠ 0 ∧ conns.tmod c.ConnFlushInterval = 0 then
      let selectConns := (cd.Items.filter fun e => flushCond h c p e.2).map Prod.snd
      { cd := { cd with Items := cd.Items.filter fun e => !flushCond h c p e.2 }
        tasks := t.tasks ++ [selectConns] }
    else { t with cd := cd }

/-- Feeding a sequence of packets to `handlePacketSpawning`, in order. -/
def feedSpawning (h : Helpers) (c : Config) (t : Tracker) (ps : List Packet) : Tracker :=
  ps.foldl (handlePacketSpawning h c) t

/-- The connections handed to the background tasks, oldest task first. -/
def handedOver (t : Tracker) : List Conn := t.tasks.flatten

/-- What the background tasks have written at some moment: a task writes its
selection in order (`for _, c := range selectConns`), so each task has written
a prefix of its selection; `progress` gives the length of that prefix task by
task, and a task without an entry has not written yet. -/
def writtenByTasks : List (List Conn) → List Nat → List Conn
  | [], _ => []
  | _ :: tasks, [] => writtenByTasks tasks []
  | task :: tasks, n :: progress => task.take n ++ writtenByTasks tasks progress

/-- The records in the sink when `Destroy` closes the writer, up to their
order: what the background tasks have written by then, and what `Destroy`
itself wrote (the terminal drain). -/
def sinkAtClose (c : Config) (t : Tracker) (progress : List Nat) : List Conn :=
  writtenByTasks t.tasks progress ++ (Destroy c t.cd).writer.records

/-- The background tasks, and the caller, have written nothing yet, the writer
is not a channel writer, and the addresses in the map followed by the addresses
handed to the tasks are a rearrangement of the addresses allocated so far. -/
def Tracker.Accounted (t : Tracker) : Prop :=
  t.cd.writer.IsChanWriter = false ∧ t.cd.writer.records = [] ∧
    (itemPtrs t.cd ++ (handedOver t).map Conn.ptr).Perm (List.range t.cd.allocs)

/-! ## Lemmas on the sink and the map -/

theorem writeConn_records (c : Config) (cd : ConnectionDecoder) (conn : Conn) :
    (writeConn c cd conn).writer.records = cd.writer.records ++ [conn] := rfl

theorem foldl_writeConn_records (c : Config) (l : List Conn) (cd : ConnectionDecoder) :
    (l.foldl (writeConn c) cd).writer.records = cd.writer.records ++ l := by
  induction l generalizing cd with
  | nil => simp
  | cons x xs ih => simp [List.foldl_cons, ih, writeConn_records]

theorem foldl_writeConn_Items (c : Config) (l : List Conn) (cd : ConnectionDecoder) :
    (l.foldl (writeConn c) cd).Items = cd.Items := by
  induction l generalizing cd with
  | nil => rfl
  | cons x xs ih => simp [List.foldl_cons, ih, writeConn]

theorem foldl_writeConn_allocs (c : Config) (l : List Conn) (cd : ConnectionDecoder) :
    (l.foldl (writeConn c) cd).allocs = cd.allocs := by
  induction l generalizing cd with
  | nil => rfl
  | cons x xs ih => simp [List.foldl_cons, ih, writeConn]

theorem foldl_writeConn_IsChanWriter (c : Config) (l : List Conn) (cd : ConnectionDecoder) :
    (l.foldl (writeConn c) cd).writer.IsChanWriter = cd.writer.IsChanWriter := by
  induction l generalizing cd with
  | nil => rfl
  | cons x xs ih => simp [List.foldl_cons, ih, writeConn]

theorem storeConn_ptrs (items : List (String × Conn)) (key : String) (c : Connection) :
    (storeConn items key c).map (fun e => e.2.ptr) = items.map fun e => e.2.ptr := by
  induction items with
  | nil => rfl
  | cons e rest ih =>
    simp only [storeConn, List.map_cons, List.map_map] at ih ⊢
    refine congrArg₂ _ ?_ ih
    by_cases hk : e.1 = key <;> simp [hk]

theorem accounted_connectionDecoder (w : Bool) : Accounted (connectionDecoder w) := by
  simp [Accounted, itemPtrs, writtenPtrs, connectionDecoder]

theorem map_filter_split_perm {α β : Type} (f : α → β) (q : α → Bool) (l : List α)
    (r : List β) :
    (List.map f (l.filter fun e => !q e) ++ (r ++ List.map f (l.filter q))).Perm
      (List.map f l ++ r) := by
  have h1 : (List.map f (l.filter q) ++ List.map f (l.filter fun e => !q e)).Perm
      (List.map f l) := by
    rw [← List.map_append]
    exact (List.filter_append_perm q l).map f
  have h2 : (List.map f (l.filter fun e => !q e) ++ (r ++ List.map f (l.filter q))).Perm
      ((List.map f (l.filter q) ++ List.map f (l.filter fun e => !q e)) ++ r) := by
    rw [← List.append_assoc]
    refine List.perm_append_comm.trans ?_
    rw [List.append_assoc]
  exact h2.trans (List.Perm.append_right r h1)

theorem handlePacket_hit (h : Helpers) (c : Config) (cd : ConnectionDecoder) (p : Packet)
    (conn : Conn) (hl : lookupConn cd.Items (connIDOf p).String = some conn) :
    handlePacket h c cd p =
      { cd with
        Items := storeConn cd.Items (connIDOf p).String (updateConnection h conn.Connection p) } := by
  simp [handlePacket, hl]

theorem handlePacket_miss (h : Helpers) (c : Config) (cd : ConnectionDecoder) (p : Packet)
    (hl : lookupConn cd.Items (connIDOf p).String = none) :
    handlePacket h c cd p =
      if c.ConnFlushInterval ≠ 0 ∧
          (insertConnection h cd (connIDOf p).String p).numConns.tmod c.ConnFlushInterval = 0 then
        flush h c (insertConnection h cd (connIDOf p).String p) p
      else insertConnection h cd (connIDOf p).String p := by
  simp [handlePacket, hl]

theorem insertConnection_accounted (h : Helpers) (cd : ConnectionDecoder) (key : String)
    (p : Packet) (hcd : Accounted cd) : Accounted (insertConnection h cd key p) := by
  simp only [Accounted, itemPtrs, writtenPtrs, insertConnection, List.map_append, List.map_cons,
    List.map_nil, List.range_succ] at hcd ⊢
  have hswap : (List.map (fun e => e.2.ptr) cd.Items ++ [cd.allocs] ++
      List.map Conn.ptr cd.writer.records).Perm
      (List.map (fun e => e.2.ptr) cd.Items ++ List.map Conn.ptr cd.writer.records ++
        [cd.allocs]) := by
    rw [List.append_assoc, List.append_assoc]
    exact List.Perm.append_left _ List.perm_append_comm
  exact hswap.trans (List.Perm.append_right _ hcd)

theorem flush_accounted (h : Helpers) (c : Config) (cd : ConnectionDecoder) (p : Packet)
    (hcd : Accounted cd) : Accounted (flush h c cd p) := by
  simp only [Accounted, itemPtrs, writtenPtrs, flush, foldl_writeConn_records,
    foldl_writeConn_Items, foldl_writeConn_allocs, List.map_append, List.map_map] at hcd ⊢
  refine List.Perm.trans ?_ hcd
  exact map_filter_split_perm (fun e => e.2.ptr) (fun e => flushCond h c p e.2) cd.Items _

theorem handlePacket_accounted (h : Helpers) (c : Config) (cd : ConnectionDecoder) (p : Packet)
    (hcd : Accounted cd) : Accounted (handlePacket h c cd p) := by
  cases hl : lookupConn cd.Items (connIDOf p).String with
  | some conn =>
    rw [handlePacket_hit h c cd p conn hl]
    simpa [Accounted, itemPtrs, writtenPtrs, storeConn_ptrs] using hcd
  | none =>
    rw [handlePacket_miss h c cd p hl]
    split
    · exact flush_accounted h c _ p (insertConnection_accounted h cd _ p hcd)
    · exact insertConnection_accounted h cd _ p hcd

theorem feed_accounted (h : Helpers) (c : Config) (ps : List Packet) (cd : ConnectionDecoder)
    (hcd : Accounted cd) : Accounted (feed h c cd ps) := by
  induction ps generalizing cd with
  | nil => exact hcd
  | cons p rest ih => exact ih _ (handlePacket_accounted h c cd p hcd)

theorem feed_IsChanWriter (h : Helpers) (c : Config) (ps : List Packet) (cd : ConnectionDecoder) :
    (feed h c cd ps).writer.IsChanWriter = cd.writer.IsChanWriter := by
  induction ps generalizing cd with
  | nil => rfl
  | cons p rest ih =>
    have hstep : (handlePacket h c cd p).writer.IsChanWriter = cd.writer.IsChanWriter := by
      cases hl : lookupConn cd.Items (connIDOf p).String with
      | some conn => rw [handlePacket_hit h c cd p conn hl]
      | none =>
        rw [handlePacket_miss h c cd p hl]
        split
        · simp [flush, foldl_writeConn_IsChanWriter, insertConnection]
        · rfl
    exact (ih (handlePacket h c cd p)).trans hstep

theorem Destroy_records (c : Config) (cd : ConnectionDecoder) :
    (Destroy c cd).writer.records =
      if cd.writer.IsChanWriter then cd.writer.records
      else cd.writer.records ++ cd.Items.map Prod.snd := by
  cases hw : cd.writer.IsChanWriter <;> simp [Destroy, DeInit, hw, foldl_writeConn_records]

theorem Destroy_allocs (c : Config) (cd : ConnectionDecoder) :
    (Destroy c cd).allocs = cd.allocs := by
  cases hw : cd.writer.IsChanWriter <;> simp [Destroy, DeInit, hw, foldl_writeConn_allocs]

theorem accounted_nodup (cd : ConnectionDecoder) (hcd : Accounted cd) :
    (itemPtrs cd ++ writtenPtrs cd).Nodup :=
  hcd.nodup_iff.mpr (List.nodup_range cd.allocs)

theorem createConnection_unset (h : Helpers) (p : Packet) :
    (createConnection h p).NumPackets = 0 ∧ (createConnection h p).TotalSize = 0 ∧
      (createConnection h p).TimestampLast = "" ∧ (createConnection h p).Duration = 0 := by
  unfold createConnection
  cases p.linkLayer <;> cases p.networkLayer <;> cases p.transportLayer <;>
    cases p.applicationLayer <;> exact ⟨rfl, rfl, rfl, rfl⟩

/-! ## The claims -/

/-- C1, at a failing input: one packet is fed to the empty tracker. Exactly one
packet of the sequence has the flow of `pktA`, and the connection tracked for
that flow has `NumPackets = 0`: the packet that creates a connection is not
counted. This is so for every packet: the record the miss branch inserts has
`NumPackets = 0`. -/
theorem first_packet_not_counted :
    (∀ (h : Helpers) (p : Packet), (createConnection h p).NumPackets = 0) ∧
      ([pktA].filter fun p => connIDOf p = connIDOf pktA).length = 1 ∧
      (tracked (feed sampleHelpers noFlush (connectionDecoder false) [pktA]) pktA).map
        (fun conn => conn.NumPackets) = some 0 :=
  ⟨fun h p => (createConnection_unset h p).1, by decide⟩

/-- C2, at a failing input: the packets A (60 bytes) and B (40 bytes) of one
flow are fed to the empty tracker. The sizes sum to 100, and the connection
has `TotalSize = 40`: the size of the packet that creates a connection is not
added. This is so for every packet: the record the miss branch inserts has
`TotalSize = 0`. -/
theorem first_packet_size_not_added :
    (∀ (h : Helpers) (p : Packet), (createConnection h p).TotalSize = 0) ∧
      (([pktA, pktB].filter fun p => connIDOf p = connIDOf pktA).map
        fun p => p.data.length).sum = 100 ∧
      (tracked (feed sampleHelpers noFlush (connectionDecoder false) [pktA, pktB]) pktA).map
        (fun conn => conn.TotalSize) = some 40 :=
  ⟨fun h p => (createConnection_unset h p).2.1, by decide⟩

/-- C3, at a failing input: after the first packet (`ts = 100`) the new
connection has `TimestampFirst = "100"` and an empty `TimestampLast`, which
reads as the zero time, so `TimestampFirst ≤ TimestampLast` does not hold for
the connection that has just been created. For every packet the record the
miss branch inserts has an empty `TimestampLast`. -/
theorem new_connection_first_after_last :
    (∀ (h : Helpers) (p : Packet), (createConnection h p).TimestampLast = "") ∧
      (tracked (feed sampleHelpers noFlush (connectionDecoder false) [pktA]) pktA).map
        (fun conn => (conn.TimestampFirst, conn.TimestampLast)) = some ("100", "") ∧
      ¬ (StringToTime "100" ≤ StringToTime "") :=
  ⟨fun h p => (createConnection_unset h p).2.2.1, by decide⟩

/-- C4, at a failing input: one packet (`ts = 100`) is fed and the tracker is
shut down with a file writer. The one record written has `Duration = 0`, while
`TimestampLast - TimestampFirst` of that record, read as Go reads it, is the
smallest duration: the two differ. -/
theorem drained_single_packet_duration :
    (Destroy noFlush (feed sampleHelpers noFlush (connectionDecoder false) [pktA])).writer.records.map
        (fun r => (r.Connection.Duration,
          (StringToTime r.Connection.TimestampLast).Sub
            (StringToTime r.Connection.TimestampFirst))) = [(0, minDuration)] ∧
      (0 : Int) ≠ minDuration := by
  decide

/-- C5, at a failing input: `pktA` and then `pktTie` arrive, both with the
earliest timestamp 100, in opposite directions. The connection ends with the
source endpoints of `pktTie`, the packet that arrived last, not with those of
`pktA`, which arrived first. -/
theorem tie_rewrites_direction :
    pktA.timestamp = pktTie.timestamp ∧
      (createConnection sampleHelpers pktA).SrcIP = "10.0.0.1" ∧
      (tracked (feed sampleHelpers noFlush (connectionDecoder false) [pktA, pktTie]) pktA).map
        (fun conn => (conn.SrcMAC, conn.SrcIP, conn.SrcPort))
        = some ("bb:bb:bb:bb:bb:bb", "10.0.0.2", "80") := by
  decide

/-- C6, at a failing input: `pktA` (`ts = 100`) and then `pktB` (`ts = 50`) of
one flow are fed. The largest timestamp is 100, and the connection has
`TimestampFirst = TimestampLast = 50`: `TimestampLast` is not the maximum. -/
theorem out_of_order_last_is_not_max :
    max pktA.timestamp pktB.timestamp = 100 ∧
      (tracked (feed sampleHelpers noFlush (connectionDecoder false) [pktA, pktB]) pktA).map
        (fun conn => (StringToTime conn.TimestampFirst, StringToTime conn.TimestampLast))
        = some (50, 50) := by
  decide

/-- C7, as stated, fails with a channel writer: after one packet and `Destroy`
one connection has been created (address 0) and it was never written. -/
theorem chan_writer_connection_never_written :
    0 < (Destroy noFlush (feed sampleHelpers noFlush (connectionDecoder true) [pktA])).allocs ∧
      (writtenPtrs
        (Destroy noFlush (feed sampleHelpers noFlush (connectionDecoder true) [pktA]))).count 0
        = 0 := by
  decide

/-- With the writes of the background flush tasks taken at the moment the
tasks are spawned and a writer that is not a channel writer, after any
sequence of `handlePacket` calls followed by `Destroy` every address below
`allocs` is in the sink exactly once and nothing else is; the sink holds the
records of the periodic flushes followed by the map entries left at shutdown.
The section on the background flush tasks has the statement that does not
assume the tasks have written. -/
theorem file_writer_each_connection_written_once (h : Helpers) (c : Config) (ps : List Packet)
    (a : Nat) :
    (writtenPtrs (Destroy c (feed h c (connectionDecoder false) ps))).count a =
        (if a < (Destroy c (feed h c (connectionDecoder false) ps)).allocs then 1 else 0) ∧
      (Destroy c (feed h c (connectionDecoder false) ps)).writer.records =
        (feed h c (connectionDecoder false) ps).writer.records ++
          (feed h c (connectionDecoder false) ps).Items.map Prod.snd := by
  have hacc := feed_accounted h c ps _ (accounted_connectionDecoder false)
  have hw : (feed h c (connectionDecoder false) ps).writer.IsChanWriter = false :=
    feed_IsChanWriter h c ps _
  have hrec := Destroy_records c (feed h c (connectionDecoder false) ps)
  rw [hw] at hrec
  simp only [Bool.false_eq_true, if_false] at hrec
  refine ⟨?_, hrec⟩
  have hperm : (writtenPtrs (Destroy c (feed h c (connectionDecoder false) ps))).Perm
      (List.range (feed h c (connectionDecoder false) ps).allocs) := by
    refine List.Perm.trans ?_ hacc
    simp only [writtenPtrs, itemPtrs, hrec, List.map_append, List.map_map]
    exact List.perm_append_comm
  rw [Destroy_allocs, hperm.count_eq]
  by_cases ha : a < (feed h c (connectionDecoder false) ps).allocs
  · rw [if_pos ha]
    exact List.count_eq_one_of_mem (List.nodup_range _) (List.mem_range.mpr ha)
  · rw [if_neg ha]
    exact List.count_eq_zero_of_not_mem (fun hm => ha (List.mem_range.mp hm))

/-- C8: for every sequence of `handlePacket` calls, with either kind of
writer, the connections in the map and the connections written so far are
pairwise distinct objects (a flushed connection has left the map and is
written once), and after `Destroy` no connection is in the sink twice. -/
theorem no_connection_written_twice (h : Helpers) (c : Config) (w : Bool) (ps : List Packet) :
    (itemPtrs (feed h c (connectionDecoder w) ps) ++
        writtenPtrs (feed h c (connectionDecoder w) ps)).Nodup ∧
      (writtenPtrs (Destroy c (feed h c (connectionDecoder w) ps))).Nodup := by
  have hnd := accounted_nodup _ (feed_accounted h c ps _ (accounted_connectionDecoder w))
  refine ⟨hnd, ?_⟩
  have hrec := Destroy_records c (feed h c (connectionDecoder w) ps)
  by_cases hw : (feed h c (connectionDecoder w) ps).writer.IsChanWriter = true
  · rw [if_pos hw] at hrec
    simp only [writtenPtrs, hrec]
    exact (List.nodup_append.mp hnd).2.1
  · rw [if_neg hw] at hrec
    simp only [writtenPtrs, itemPtrs, hrec, List.map_append, List.map_map] at hnd ⊢
    exact (List.perm_append_comm.nodup_iff).mp hnd

/-- C9, at the scenario's input: `pktA` and then `pktB` are fed to the empty
tracker. There is a single connection; it has `TimestampFirst = 50`,
`NumPackets = 1`, `TotalSize = 40`, `SrcIP = 10.0.0.2`, `DstIP = 10.0.0.1`,
and `TimestampLast = 50`, `Duration = 0` where the scenario expects
`TimestampLast = 100`, `Duration = 50`, `NumPackets = 2`, `TotalSize = 100`. -/
theorem direction_inversion_scenario :
    (feed sampleHelpers noFlush (connectionDecoder false) [pktA, pktB]).Items.map
        (fun e => e.2.Connection) =
      [{ UID := sampleUID
         TimestampFirst := "50", TimestampLast := "50", Duration := 0
         NumPackets := 1, TotalSize := 40, AppPayloadSize := 0
         LinkProto := "Ethernet", NetworkProto := "IPv4", TransportProto := "TCP"
         SrcMAC := "bb:bb:bb:bb:bb:bb", DstMAC := "aa:aa:aa:aa:aa:aa"
         SrcIP := "10.0.0.2", DstIP := "10.0.0.1", SrcPort := "80", DstPort := "5000" }] := by
  decide

/-- C10, at a failing input: `pktApp` (`ts = 100`, 65 bytes, four layers, 5
bytes of application payload) is fed and the tracker is shut down with a file
writer. Exactly one record is written; its `TimestampFirst`, protocol names,
endpoints and `AppPayloadSize` match the packet, but `TimestampLast` is empty,
`NumPackets` is 0 and `TotalSize` is 0. -/
theorem single_packet_drain_record :
    (Destroy noFlush
        (feed sampleHelpers noFlush (connectionDecoder false) [pktApp])).writer.records.map
        Conn.Connection =
      [{ UID := sampleUID
         TimestampFirst := "100", TimestampLast := "", Duration := 0
         NumPackets := 0, TotalSize := 0, AppPayloadSize := 5
         LinkProto := "Ethernet", NetworkProto := "IPv4", TransportProto := "TCP"
         ApplicationProto := "Payload"
         SrcMAC := "aa:aa:aa:aa:aa:aa", DstMAC := "bb:bb:bb:bb:bb:bb"
         SrcIP := "10.0.0.1", DstIP := "10.0.0.2", SrcPort := "5000", DstPort := "80" }] ∧
      pktApp.data.length = 65 := by
  decide

/-! ## Lemmas on the hit branch -/

theorem lookupConn_storeConn (items : List (String × Conn)) (key : String) (conn : Conn)
    (c : Connection) (hl : lookupConn items key = some conn) :
    lookupConn (storeConn items key c) key = some { conn with Connection := c } := by
  induction items with
  | nil => simp [lookupConn] at hl
  | cons e rest ih =>
    by_cases hk : e.1 = key
    · simp only [lookupConn, hk, if_true, Option.some.injEq] at hl
      simp [storeConn, lookupConn, hk, hl]
    · simp only [lookupConn, hk, if_false] at hl
      have ih' := ih hl
      simp only [storeConn] at ih'
      simp [storeConn, lookupConn, hk, ih']

theorem storeConn_ids (items : List (String × Conn)) (key : String) (c : Connection) :
    (storeConn items key c).map (fun e => (e.1, e.2.ptr)) =
      items.map fun e => (e.1, e.2.ptr) := by
  induction items with
  | nil => rfl
  | cons e rest ih =>
    simp only [storeConn, List.map_cons, List.map_map] at ih ⊢
    refine congrArg₂ _ ?_ ih
    by_cases hk : e.1 = key <;> simp [hk]

theorem tracked_handlePacket_hit (h : Helpers) (c : Config) (cd : ConnectionDecoder)
    (p : Packet) (conn : Conn) (hl : lookupConn cd.Items (connIDOf p).String = some conn) :
    tracked (handlePacket h c cd p) p = some (updateConnection h conn.Connection p) := by
  rw [handlePacket_hit h c cd p conn hl]
  simp [tracked, lookupConn_storeConn _ _ conn _ hl]

theorem rewriteEndpoints_fields (conn : Connection) (p : Packet) :
    (rewriteEndpoints conn p).SrcMAC = (p.linkLayer.map fun l => l.flow.src).getD conn.SrcMAC ∧
    (rewriteEndpoints conn p).DstMAC = (p.linkLayer.map fun l => l.flow.dst).getD conn.DstMAC ∧
    (rewriteEndpoints conn p).SrcIP = (p.networkLayer.map fun l => l.flow.src).getD conn.SrcIP ∧
    (rewriteEndpoints conn p).DstIP = (p.networkLayer.map fun l => l.flow.dst).getD conn.DstIP ∧
    (rewriteEndpoints conn p).SrcPort
      = (p.transportLayer.map fun l => l.flow.src).getD conn.SrcPort ∧
    (rewriteEndpoints conn p).DstPort
      = (p.transportLayer.map fun l => l.flow.dst).getD conn.DstPort := by
  unfold rewriteEndpoints
  cases p.linkLayer <;> cases p.networkLayer <;> cases p.transportLayer <;>
    exact ⟨rfl, rfl, rfl, rfl, rfl, rfl⟩

theorem rewriteEndpoints_frame (conn : Connection) (p : Packet) :
    (rewriteEndpoints conn p).TimestampFirst = conn.TimestampFirst ∧
    (rewriteEndpoints conn p).TimestampLast = conn.TimestampLast ∧
    (rewriteEndpoints conn p).UID = conn.UID ∧
    (rewriteEndpoints conn p).NumPackets = conn.NumPackets ∧
    (rewriteEndpoints conn p).TotalSize = conn.TotalSize ∧
    (rewriteEndpoints conn p).Duration = conn.Duration := by
  unfold rewriteEndpoints
  cases p.linkLayer <;> cases p.networkLayer <;> cases p.transportLayer <;>
    exact ⟨rfl, rfl, rfl, rfl, rfl, rfl⟩

/-- The hit branch when the packet is not after `TimestampFirst`: the record
after the first `if`, then the remaining steps. -/
theorem updateConnection_not_after (h : Helpers) (conn : Connection) (p : Packet)
    (hle : p.timestamp ≤ h.StringToTime conn.TimestampFirst) :
    updateConnection h conn p =
      (let c1 := rewriteEndpoints { conn with TimestampFirst := h.TimeToString p.timestamp } p
       let c2 := if (h.StringToTime c1.TimestampLast).Before p.timestamp then
          { c1 with TimestampLast := h.TimeToString p.timestamp } else c1
       { c2 with
          NumPackets := wrapInt32 (c2.NumPackets + 1)
          TotalSize := wrapInt32 (c2.TotalSize + wrapInt32 p.data.length)
          Duration := (h.StringToTime c2.TimestampLast).Sub (h.StringToTime c2.TimestampFirst) }) := by
  have h1 : ((h.StringToTime conn.TimestampFirst).Before p.timestamp) = false := by
    simp [Time.Before, hle]
  unfold updateConnection
  simp only [h1, Bool.not_false, if_true]
  cases hb : (h.StringToTime (rewriteEndpoints
      { conn with TimestampFirst := h.TimeToString p.timestamp } p).TimestampLast).Before
      p.timestamp
  · simp only [hb, Bool.false_eq_true, if_false, if_true]
  · simp only [hb, if_true]

theorem updateConnection_UID (h : Helpers) (conn : Connection) (p : Packet) :
    (updateConnection h conn p).UID = conn.UID := by
  unfold updateConnection
  cases h1 : (h.StringToTime conn.TimestampFirst).Before p.timestamp
  · simp only [h1, Bool.not_false, if_true]
    cases h2 : (h.StringToTime (rewriteEndpoints
        { conn with TimestampFirst := h.TimeToString p.timestamp } p).TimestampLast).Before
        p.timestamp
    · simp only [h2, Bool.false_eq_true, if_false, if_true]
      exact (rewriteEndpoints_frame _ p).2.2.1
    · simp only [h2, if_true]
      exact (rewriteEndpoints_frame _ p).2.2.1
  · simp only [h1, Bool.not_true, Bool.false_eq_true, if_false]
    cases h2 : (h.StringToTime conn.TimestampLast).Before p.timestamp
    · simp only [h2, Bool.false_eq_true, if_false]
    · simp only [h2, if_true]

theorem Time.Sub_of_inRange (t u : Time)
    (hr : minDuration ≤ t - u ∧ t - u ≤ maxDuration) : t.Sub u = t - u := by
  simp [Time.Sub, hr]

/-! ## The claims on ties, rewrites and the sweep -/

/-- C11, at a failing input: the connection of `pktA` and `pktLate` has
`TimestampFirst = 100`, `TimestampLast = 200` and the endpoints of `pktA`;
`pktTie`, a packet of the flow in the other direction whose timestamp equals
`TimestampFirst`, is then handled. The timestamps stay as they are, but all
six endpoint fields are rewritten from `pktTie`: the tie is treated as an
earlier packet. -/
theorem tie_with_first_rewrites_endpoints :
    (tracked (feed sampleHelpers noFlush (connectionDecoder false) [pktA, pktLate]) pktTie).map
        (fun conn => ((conn.TimestampFirst, conn.TimestampLast),
          (conn.SrcMAC, conn.DstMAC, conn.SrcIP), (conn.DstIP, conn.SrcPort, conn.DstPort))) =
      some (("100", "200"), ("aa:aa:aa:aa:aa:aa", "bb:bb:bb:bb:bb:bb", "10.0.0.1"),
        ("10.0.0.2", "5000", "80")) ∧
    StringToTime "100" = pktTie.timestamp ∧
    (tracked (handlePacket sampleHelpers noFlush
        (feed sampleHelpers noFlush (connectionDecoder false) [pktA, pktLate]) pktTie) pktTie).map
        (fun conn => ((conn.TimestampFirst, conn.TimestampLast),
          (conn.SrcMAC, conn.DstMAC, conn.SrcIP), (conn.DstIP, conn.SrcPort, conn.DstPort))) =
      some (("100", "200"), ("bb:bb:bb:bb:bb:bb", "aa:aa:aa:aa:aa:aa", "10.0.0.2"),
        ("10.0.0.1", "80", "5000")) := by
  decide

/-- C12: for every tracked connection and every packet of its flow with a
timestamp strictly earlier than `TimestampFirst`, after `handlePacket` the
same connection object is tracked for the flow, its `TimestampFirst` is the
packet timestamp, each of `SrcMAC/DstMAC`, `SrcIP/DstIP`, `SrcPort/DstPort` is
taken from the packet's layer when that layer is present (and kept
otherwise), and `Duration` is `TimestampLast` minus the new `TimestampFirst`
as Go's `Sub` computes it, which is the integer difference whenever that fits
a `time.Duration`. `TimestampLast` is the one the connection had, unless that
was itself before the packet, in which case it is the packet timestamp too. -/
theorem earlier_packet_rewrites_first (h : Helpers) (c : Config) (cd : ConnectionDecoder)
    (p : Packet) (conn : Conn)
    (htracked : lookupConn cd.Items (connIDOf p).String = some conn)
    (hearlier : p.timestamp < h.StringToTime conn.Connection.TimestampFirst) :
    ∃ conn', lookupConn (handlePacket h c cd p).Items (connIDOf p).String = some conn' ∧
      conn'.ptr = conn.ptr ∧
      conn'.Connection.TimestampFirst = h.TimeToString p.timestamp ∧
      conn'.Connection.SrcMAC
        = (p.linkLayer.map fun l => l.flow.src).getD conn.Connection.SrcMAC ∧
      conn'.Connection.DstMAC
        = (p.linkLayer.map fun l => l.flow.dst).getD conn.Connection.DstMAC ∧
      conn'.Connection.SrcIP
        = (p.networkLayer.map fun l => l.flow.src).getD conn.Connection.SrcIP ∧
      conn'.Connection.DstIP
        = (p.networkLayer.map fun l => l.flow.dst).getD conn.Connection.DstIP ∧
      conn'.Connection.SrcPort
        = (p.transportLayer.map fun l => l.flow.src).getD conn.Connection.SrcPort ∧
      conn'.Connection.DstPort
        = (p.transportLayer.map fun l => l.flow.dst).getD conn.Connection.DstPort ∧
      conn'.Connection.TimestampLast
        = (if h.StringToTime conn.Connection.TimestampLast < p.timestamp then
            h.TimeToString p.timestamp else conn.Connection.TimestampLast) ∧
      conn'.Connection.Duration
        = (h.StringToTime conn'.Connection.TimestampLast).Sub
            (h.StringToTime conn'.Connection.TimestampFirst) ∧
      (minDuration ≤ h.StringToTime conn'.Connection.TimestampLast
            - h.StringToTime conn'.Connection.TimestampFirst ∧
          h.StringToTime conn'.Connection.TimestampLast
            - h.StringToTime conn'.Connection.TimestampFirst ≤ maxDuration →
        conn'.Connection.Duration
          = h.StringToTime conn'.Connection.TimestampLast
            - h.StringToTime conn'.Connection.TimestampFirst) := by
  refine ⟨{ conn with Connection := updateConnection h conn.Connection p }, ?_, rfl, ?_⟩
  · rw [handlePacket_hit h c cd p conn htracked]
    exact lookupConn_storeConn _ _ conn _ htracked
  · have hupd := updateConnection_not_after h conn.Connection p (le_of_lt hearlier)
    have hf := rewriteEndpoints_fields
      { conn.Connection with TimestampFirst := h.TimeToString p.timestamp } p
    have hfr := rewriteEndpoints_frame
      { conn.Connection with TimestampFirst := h.TimeToString p.timestamp } p
    simp only [] at hf hfr
    have hdur : (updateConnection h conn.Connection p).Duration
        = (h.StringToTime (updateConnection h conn.Connection p).TimestampLast).Sub
            (h.StringToTime (updateConnection h conn.Connection p).TimestampFirst) := by
      rw [hupd]
    have hlast : (updateConnection h conn.Connection p).TimestampLast
        = (if h.StringToTime conn.Connection.TimestampLast < p.timestamp then
            h.TimeToString p.timestamp else conn.Connection.TimestampLast) := by
      rw [hupd]
      simp only [hfr.2.1, Time.Before, decide_eq_true_eq]
      split
      · rfl
      · exact hfr.2.1
    refine ⟨?_, ?_, ?_, ?_, ?_, ?_, ?_, hlast, hdur, ?_⟩
    · rw [hupd]; simp only []; split <;> exact hfr.1
    · rw [hupd]; simp only []; split <;> exact hf.1
    · rw [hupd]; simp only []; split <;> exact hf.2.1
    · rw [hupd]; simp only []; split <;> exact hf.2.2.1
    · rw [hupd]; simp only []; split <;> exact hf.2.2.2.1
    · rw [hupd]; simp only []; split <;> exact hf.2.2.2.2.1
    · rw [hupd]; simp only []; split <;> exact hf.2.2.2.2.2
    · intro hr
      rw [hdur]
      exact Time.Sub_of_inRange _ _ hr

/-- C12, at a concrete input: `pktB` (`ts = 50`) arrives for the connection of
`pktA` and `pktLate`, whose `TimestampFirst` is 100. -/
theorem earlier_packet_rewrites_first_witness :
    lookupConn trackerAL.Items (connIDOf pktB).String = some connAL ∧
      pktB.timestamp < sampleHelpers.StringToTime connAL.Connection.TimestampFirst ∧
      ∃ conn', lookupConn (handlePacket sampleHelpers noFlush trackerAL pktB).Items
          (connIDOf pktB).String = some conn' ∧
        conn'.Connection.TimestampFirst = "50" ∧
        conn'.Connection.SrcIP = "10.0.0.2" ∧
        conn'.Connection.DstIP = "10.0.0.1" := by
  refine ⟨by decide, by decide, ?_⟩
  obtain ⟨conn', h1, _, h3, _, _, h6, h7, _⟩ :=
    earlier_packet_rewrites_first sampleHelpers noFlush trackerAL pktB connAL
      (by decide) (by decide)
  exact ⟨conn', h1, h3, h6, h7⟩

theorem flush_Items (h : Helpers) (c : Config) (cd : ConnectionDecoder) (p : Packet) :
    (flush h c cd p).Items = cd.Items.filter fun e => !flushCond h c p e.2 := by
  simp [flush, foldl_writeConn_Items]

theorem flush_records (h : Helpers) (c : Config) (cd : ConnectionDecoder) (p : Packet) :
    (flush h c cd p).writer.records =
      cd.writer.records ++ (cd.Items.filter fun e => flushCond h c p e.2).map Prod.snd := by
  simp [flush, foldl_writeConn_records]

/-- C13: when `handlePacket` misses, so that it creates a connection, and the
incremented `numConns` is a multiple of a non-zero `ConnFlushInterval`, then
of the map with the new entry the entries left are exactly those that do not
satisfy `packet.ts - TimestampLast > ConnTimeOut`, unchanged and in their
order, and the records handed to the writer are exactly the entries that do
satisfy it, one record per removed entry. -/
theorem sweep_removes_exactly_the_timed_out (h : Helpers) (c : Config) (cd : ConnectionDecoder)
    (p : Packet)
    (hmiss : lookupConn cd.Items (connIDOf p).String = none)
    (hinterval : c.ConnFlushInterval ≠ 0)
    (hmultiple : c.ConnFlushInterval ∣ wrapInt64 (cd.numConns + 1)) :
    (handlePacket h c cd p).Items =
        (cd.Items ++ [((connIDOf p).String, Conn.mk cd.allocs (createConnection h p))]).filter
          (fun e => decide (¬ p.timestamp.Sub (h.StringToTime e.2.Connection.TimestampLast)
            > c.ConnTimeOut)) ∧
      (handlePacket h c cd p).writer.records =
        cd.writer.records ++
          ((cd.Items ++ [((connIDOf p).String, Conn.mk cd.allocs (createConnection h p))]).filter
            (fun e => decide (p.timestamp.Sub (h.StringToTime e.2.Connection.TimestampLast)
              > c.ConnTimeOut))).map Prod.snd := by
  have hcond : c.ConnFlushInterval ≠ 0 ∧
      (insertConnection h cd (connIDOf p).String p).numConns.tmod c.ConnFlushInterval = 0 :=
    ⟨hinterval, Int.tmod_eq_zero_of_dvd hmultiple⟩
  rw [handlePacket_miss h c cd p hmiss, if_pos hcond, flush_Items, flush_records]
  refine ⟨?_, rfl⟩
  simp only [insertConnection, flushCond]
  congr 1
  funext e
  by_cases hx : p.timestamp.Sub (h.StringToTime e.2.Connection.TimestampLast) > c.ConnTimeOut
  · simp [hx]
  · simp [hx]

/-- C13, at a concrete input: the tracker holds F1 (last seen at `t=0`) and F3
(last seen at `t=10s`); a first packet of F2 arrives at `t=10.5s` with
`ConnFlushInterval=1`, `ConnTimeOut=1s`. F3 is the one entry left. -/
theorem sweep_removes_exactly_the_timed_out_witness :
    lookupConn trackerF13.Items (connIDOf pktF2Late).String = none ∧
      sweepAlways.ConnFlushInterval ≠ 0 ∧
      sweepAlways.ConnFlushInterval ∣ wrapInt64 (trackerF13.numConns + 1) ∧
      (handlePacket sampleHelpers sweepAlways trackerF13 pktF2Late).Items.map Prod.fst
        = [(connIDOf pktF3).String] ∧
      (handlePacket sampleHelpers sweepAlways trackerF13 pktF2Late).writer.records.map Conn.ptr
        = [0, 2] := by
  have hw := sweep_removes_exactly_the_timed_out sampleHelpers sweepAlways trackerF13 pktF2Late
    (by decide) (by decide) (by decide)
  refine ⟨by decide, by decide, by decide, ?_, ?_⟩
  · rw [hw.1]; decide
  · rw [hw.2]; decide

theorem lookupConn_filter_none (items : List (String × Conn)) (key : String)
    (q : String × Conn → Bool) (hl : lookupConn items key = none) :
    lookupConn (items.filter q) key = none := by
  induction items with
  | nil => rfl
  | cons e rest ih =>
    by_cases hk : e.1 = key
    · simp [lookupConn, hk] at hl
    · simp only [lookupConn, hk, if_false] at hl
      by_cases hq : q e = true
      · simp [List.filter_cons, hq, lookupConn, hk, ih hl]
      · simp [List.filter_cons, hq, ih hl]

theorem lookupConn_append_miss (items : List (String × Conn)) (key : String) (v : Conn)
    (hl : lookupConn items key = none) :
    lookupConn (items ++ [(key, v)]) key = some v := by
  induction items with
  | nil => simp [lookupConn]
  | cons e rest ih =>
    by_cases hk : e.1 = key
    · simp [lookupConn, hk] at hl
    · simp only [lookupConn, hk, if_false] at hl
      simp [lookupConn, hk, ih hl]

theorem foldl_writeConn_numConns (c : Config) (l : List Conn) (cd : ConnectionDecoder) :
    (l.foldl (writeConn c) cd).numConns = cd.numConns := by
  induction l generalizing cd with
  | nil => rfl
  | cons x xs ih => simp [List.foldl_cons, ih, writeConn]

theorem flush_numConns (h : Helpers) (c : Config) (cd : ConnectionDecoder) (p : Packet) :
    (flush h c cd p).numConns = cd.numConns := by
  simp [flush, foldl_writeConn_numConns]

theorem flushCond_createConnection (h : Helpers) (c : Config) (p : Packet) (n : Nat) :
    flushCond h c p (Conn.mk n (createConnection h p)) =
      decide (p.timestamp.Sub (h.StringToTime "") > c.ConnTimeOut) := by
  simp only [flushCond, (createConnection_unset h p).2.2.1]

/-- C14, at a failing input: with `ConnFlushInterval=1` and `ConnTimeOut=1s`
one packet is fed to the empty tracker. The sweep it triggers evicts the
connection it has just created (the map is empty again and the connection is
in the sink), although the most recent packet of that connection is the
current one. For every packet the new entry is judged by how the
empty `TimestampLast` reads, not by the packet's timestamp. -/
theorem new_connection_swept_at_once :
    (∀ (h : Helpers) (c : Config) (p : Packet) (n : Nat),
        flushCond h c p (Conn.mk n (createConnection h p)) =
          decide (p.timestamp.Sub (h.StringToTime "") > c.ConnTimeOut)) ∧
      (feed sampleHelpers sweepAlways (connectionDecoder false) [pktA]).Items = [] ∧
      (feed sampleHelpers sweepAlways (connectionDecoder false) [pktA]).writer.records.map
        (fun r => (r.ptr, r.Connection.TimestampFirst, r.Connection.TimestampLast))
        = [(0, "100", "")] ∧
      pktA.timestamp.Sub pktA.timestamp = 0 ∧
      pktA.timestamp.Sub (StringToTime "") = maxDuration :=
  ⟨flushCond_createConnection, by decide⟩

/-- C15, as stated, fails: in the scenario the sweep does not run on the
creation of F3. When F3 arrives, F1 and F2 have already left the map and are
in the sink; handling F3 only inserts F3 (`numConns` becomes 3, not a multiple
of 2) and writes nothing. -/
theorem flush_scenario_no_sweep_on_third :
    (feed sampleHelpers flushScenario (connectionDecoder false) [pktF1, pktF2]).Items = [] ∧
      writtenPtrs (feed sampleHelpers flushScenario (connectionDecoder false) [pktF1, pktF2])
        = [0, 1] ∧
      handlePacket sampleHelpers flushScenario
          (feed sampleHelpers flushScenario (connectionDecoder false) [pktF1, pktF2]) pktF3
        = insertConnection sampleHelpers
          (feed sampleHelpers flushScenario (connectionDecoder false) [pktF1, pktF2])
          (connIDOf pktF3).String pktF3 ∧
      (feed sampleHelpers flushScenario (connectionDecoder false) [pktF1, pktF2, pktF3]).numConns
        = 3 := by
  decide

/-- C15, amended: with `ConnFlushInterval=2` and `ConnTimeOut=1s`, feeding F1
(`t=0`), F2 (`t=0`) and F3 (`t=10s`) to the empty tracker (`numConns=0`), no
sweep runs on the creation of F1, the sweep runs on the creation of F2
(`numConns=2`), no sweep runs on the creation of F3 (`numConns=3`), which
writes nothing, and F3 remains in the tracker. This holds whatever the time
helpers are. -/
theorem flush_scenario_sweeps_on_second (h : Helpers) :
    feed h flushScenario (connectionDecoder false) [pktF1]
        = insertConnection h (connectionDecoder false) (connIDOf pktF1).String pktF1 ∧
      feed h flushScenario (connectionDecoder false) [pktF1, pktF2]
        = flush h flushScenario
            (insertConnection h (feed h flushScenario (connectionDecoder false) [pktF1])
              (connIDOf pktF2).String pktF2) pktF2 ∧
      feed h flushScenario (connectionDecoder false) [pktF1, pktF2, pktF3]
        = insertConnection h (feed h flushScenario (connectionDecoder false) [pktF1, pktF2])
            (connIDOf pktF3).String pktF3 ∧
      (feed h flushScenario (connectionDecoder false) [pktF1, pktF2, pktF3]).writer.records
        = (feed h flushScenario (connectionDecoder false) [pktF1, pktF2]).writer.records ∧
      tracked (feed h flushScenario (connectionDecoder false) [pktF1, pktF2, pktF3]) pktF3
        = some (createConnection h pktF3) := by
  have e1 : feed h flushScenario (connectionDecoder false) [pktF1]
      = insertConnection h (connectionDecoder false) (connIDOf pktF1).String pktF1 := by
    show handlePacket h flushScenario (connectionDecoder false) pktF1 = _
    rw [handlePacket_miss h flushScenario (connectionDecoder false) pktF1 rfl]
    exact if_neg (by simp only [insertConnection, connectionDecoder]; decide)
  have l2 : lookupConn (feed h flushScenario (connectionDecoder false) [pktF1]).Items
      (connIDOf pktF2).String = none := by
    rw [e1]
    simp only [insertConnection, connectionDecoder, List.nil_append, lookupConn]
    exact if_neg (by decide)
  have e2 : feed h flushScenario (connectionDecoder false) [pktF1, pktF2]
      = flush h flushScenario
          (insertConnection h (feed h flushScenario (connectionDecoder false) [pktF1])
            (connIDOf pktF2).String pktF2) pktF2 := by
    show handlePacket h flushScenario
      (feed h flushScenario (connectionDecoder false) [pktF1]) pktF2 = _
    rw [handlePacket_miss h flushScenario _ pktF2 l2]
    exact if_pos (by rw [e1]; simp only [insertConnection, connectionDecoder]; decide)
  have l3 : lookupConn (feed h flushScenario (connectionDecoder false) [pktF1, pktF2]).Items
      (connIDOf pktF3).String = none := by
    rw [e2, flush_Items]
    apply lookupConn_filter_none
    rw [e1]
    simp only [insertConnection, connectionDecoder, List.nil_append, List.cons_append,
      lookupConn]
    rw [if_neg (by decide), if_neg (by decide)]
  have e3 : feed h flushScenario (connectionDecoder false) [pktF1, pktF2, pktF3]
      = insertConnection h (feed h flushScenario (connectionDecoder false) [pktF1, pktF2])
          (connIDOf pktF3).String pktF3 := by
    show handlePacket h flushScenario
      (feed h flushScenario (connectionDecoder false) [pktF1, pktF2]) pktF3 = _
    rw [handlePacket_miss h flushScenario _ pktF3 l3]
    refine if_neg ?_
    have hn : (feed h flushScenario (connectionDecoder false) [pktF1, pktF2]).numConns = 2 := by
      rw [e2, flush_numConns, e1]
      simp only [insertConnection, connectionDecoder]
      decide
    simp only [insertConnection, hn]
    decide
  refine ⟨e1, e2, e3, ?_, ?_⟩
  · rw [e3]; rfl
  · rw [e3]
    simp only [tracked, insertConnection]
    rw [lookupConn_append_miss _ _ _ l3]
    rfl

theorem handlePacket_hit_keeps (h : Helpers) (c : Config) (cd : ConnectionDecoder) (p : Packet)
    (conn : Conn) (hl : lookupConn cd.Items (connIDOf p).String = some conn) :
    (handlePacket h c cd p).writer = cd.writer ∧
      itemIds (handlePacket h c cd p) = itemIds cd := by
  rw [handlePacket_hit h c cd p conn hl]
  exact ⟨rfl, storeConn_ids _ _ _⟩

theorem handlePacket_noflush (h : Helpers) (c : Config) (cd : ConnectionDecoder) (p : Packet)
    (h0 : c.ConnFlushInterval = 0) :
    (handlePacket h c cd p).writer = cd.writer ∧
      itemIds cd <+: itemIds (handlePacket h c cd p) := by
  cases hl : lookupConn cd.Items (connIDOf p).String with
  | some conn =>
    obtain ⟨hw, hi⟩ := handlePacket_hit_keeps h c cd p conn hl
    exact ⟨hw, hi ▸ List.prefix_refl _⟩
  | none =>
    rw [handlePacket_miss h c cd p hl, if_neg (fun hc => hc.1 h0)]
    refine ⟨rfl, ?_⟩
    simp only [itemIds, insertConnection, List.map_append]
    exact List.prefix_append _ _

theorem feed_noflush (h : Helpers) (c : Config) (ps : List Packet) (cd : ConnectionDecoder)
    (h0 : c.ConnFlushInterval = 0) :
    (feed h c cd ps).writer = cd.writer ∧ itemIds cd <+: itemIds (feed h c cd ps) := by
  induction ps generalizing cd with
  | nil => exact ⟨rfl, List.prefix_refl _⟩
  | cons p rest ih =>
    obtain ⟨hw, hi⟩ := handlePacket_noflush h c cd p h0
    obtain ⟨hw', hi'⟩ := ih (handlePacket h c cd p)
    exact ⟨hw'.trans hw, hi.trans hi'⟩

/-- C16: with `ConnFlushInterval = 0`, from any tracker state and for every
packet sequence, the writer (so the sink) is as it was and the map entries
present before, with their keys and addresses, are still there, in place: no
call removes or writes a connection. For any `ConnFlushInterval`, a call that
hits an existing connection leaves the writer and the keys and addresses of
the map as they were. -/
theorem no_sweep_without_interval_or_on_hit (h : Helpers) (c : Config) (cd : ConnectionDecoder) :
    (c.ConnFlushInterval = 0 → ∀ ps : List Packet,
        (feed h c cd ps).writer = cd.writer ∧ itemIds cd <+: itemIds (feed h c cd ps)) ∧
      (∀ (p : Packet) (conn : Conn), lookupConn cd.Items (connIDOf p).String = some conn →
        (handlePacket h c cd p).writer = cd.writer ∧
          itemIds (handlePacket h c cd p) = itemIds cd) :=
  ⟨fun h0 ps => feed_noflush h c ps cd h0, fun p conn hl => handlePacket_hit_keeps h c cd p conn hl⟩

/-- C16, at a concrete input: from the tracker that holds the flow of `pktA`,
with the flush off, `pktB` and `pktF1` are fed; and with a sweep on every new
connection, `pktB` hits the connection of `pktA`. -/
theorem no_sweep_without_interval_or_on_hit_witness :
    noFlush.ConnFlushInterval = 0 ∧
      lookupConn trackerAL.Items (connIDOf pktB).String = some connAL ∧
      (feed sampleHelpers noFlush trackerAL [pktB, pktF1]).writer = trackerAL.writer ∧
      itemIds trackerAL <+: itemIds (feed sampleHelpers noFlush trackerAL [pktB, pktF1]) ∧
      (handlePacket sampleHelpers sweepAlways trackerAL pktB).writer = trackerAL.writer ∧
      itemIds (handlePacket sampleHelpers sweepAlways trackerAL pktB) = itemIds trackerAL :=
  ⟨by decide, by decide,
    ((no_sweep_without_interval_or_on_hit sampleHelpers noFlush trackerAL).1 (by decide)
      [pktB, pktF1]).1,
    ((no_sweep_without_interval_or_on_hit sampleHelpers noFlush trackerAL).1 (by decide)
      [pktB, pktF1]).2,
    ((no_sweep_without_interval_or_on_hit sampleHelpers sweepAlways trackerAL).2 pktB connAL
      (by decide)).1,
    ((no_sweep_without_interval_or_on_hit sampleHelpers sweepAlways trackerAL).2 pktB connAL
      (by decide)).2⟩

/-- C17: `DeInit` with a writer that is not a channel writer appends to the
sink exactly the connections of the map, one record per map entry; with a
channel writer it leaves the sink as it was. In both cases the error it
returns is nil and the map, with every connection in it, is unchanged. -/
theorem DeInit_drains_the_map (c : Config) (cd : ConnectionDecoder) :
    (DeInit c cd).writer.records =
        (if cd.writer.IsChanWriter then cd.writer.records
          else cd.writer.records ++ cd.Items.map Prod.snd) ∧
      DeInit.error c cd = none ∧
      (DeInit c cd).Items = cd.Items := by
  cases hw : cd.writer.IsChanWriter <;>
    simp [DeInit, DeInit.error, hw, foldl_writeConn_records, foldl_writeConn_Items]

/-- C18, at a failing input: `pktX` and `pktY` have different hash triples,
(1111111111111111111, 12222222222222222222, 3) and
(11111111111111111111, 2222222222222222222, 3), but the same key, so
`ConnectionID.String` is not injective; fed in this order, `pktY` updates the
connection `pktX` created: one object is allocated, the map has one entry,
and it carries the endpoints of `pktX` with the timestamp of `pktY`. -/
theorem distinct_triples_share_a_key :
    connIDOf pktX ≠ connIDOf pktY ∧
      (connIDOf pktX).String = (connIDOf pktY).String ∧
      ¬ Function.Injective ConnectionID.String ∧
      (feed sampleHelpers noFlush (connectionDecoder false) [pktX, pktY]).allocs = 1 ∧
      (feed sampleHelpers noFlush (connectionDecoder false) [pktX, pktY]).Items.map
        (fun e => (e.2.ptr, e.2.Connection.SrcIP, e.2.Connection.NumPackets,
          e.2.Connection.TimestampLast)) = [(0, "10.0.0.1", 1, "200")] := by
  refine ⟨by decide, by decide, ?_, by decide, by decide⟩
  intro hinj
  exact absurd (hinj (show (connIDOf pktX).String = (connIDOf pktY).String by decide))
    (by decide)

/-- C19: for every packet the key `handlePacket` uses, `connID.String()`, is
the decimal form of the link flow hash, then that of the network flow hash,
then that of the transport flow hash, where a missing layer counts as hash 0,
whose decimal form is "0"; on a hit the entry stored to is the one under this
key and on a miss the entry inserted carries this key. A packet without
transport layer has a key that ends in "0". -/
theorem map_key_is_concatenation (h : Helpers) (c : Config) (cd : ConnectionDecoder)
    (p : Packet) :
    (connIDOf p).String =
        FormatUint (layerHash p.linkLayer) ++ FormatUint (layerHash p.networkLayer) ++
          FormatUint (layerHash p.transportLayer) ∧
      layerHash none = 0 ∧ FormatUint 0 = "0" ∧
      (connIDOf { p with transportLayer := none }).String =
        FormatUint (layerHash p.linkLayer) ++ FormatUint (layerHash p.networkLayer) ++ "0" ∧
      handlePacket h c cd p =
        (match lookupConn cd.Items
            (FormatUint (layerHash p.linkLayer) ++ FormatUint (layerHash p.networkLayer) ++
              FormatUint (layerHash p.transportLayer)) with
          | some conn =>
            { cd with
              Items := storeConn cd.Items
                (FormatUint (layerHash p.linkLayer) ++ FormatUint (layerHash p.networkLayer) ++
                  FormatUint (layerHash p.transportLayer))
                (updateConnection h conn.Connection p) }
          | none =>
            if c.ConnFlushInterval ≠ 0 ∧
                (wrapInt64 (cd.numConns + 1)).tmod c.ConnFlushInterval = 0 then
              flush h c
                { cd with
                  Items := cd.Items ++
                    [(FormatUint (layerHash p.linkLayer) ++
                        FormatUint (layerHash p.networkLayer) ++
                        FormatUint (layerHash p.transportLayer),
                      Conn.mk cd.allocs (createConnection h p))]
                  allocs := cd.allocs + 1
                  numConns := wrapInt64 (cd.numConns + 1) } p
            else
              { cd with
                Items := cd.Items ++
                  [(FormatUint (layerHash p.linkLayer) ++
                      FormatUint (layerHash p.networkLayer) ++
                      FormatUint (layerHash p.transportLayer),
                    Conn.mk cd.allocs (createConnection h p))]
                allocs := cd.allocs + 1
                numConns := wrapInt64 (cd.numConns + 1) }) := by
  have hkey : ∀ q : Packet, (connIDOf q).String =
      FormatUint (layerHash q.linkLayer) ++ FormatUint (layerHash q.networkLayer) ++
        FormatUint (layerHash q.transportLayer) := by
    intro q
    unfold connIDOf ConnectionID.String layerHash
    cases q.linkLayer <;> cases q.networkLayer <;> cases q.transportLayer <;> rfl
  have hzero : FormatUint (layerHash none) = "0" := by decide
  refine ⟨hkey p, rfl, by decide, ?_, ?_⟩
  · rw [hkey]
    show _ ++ FormatUint (layerHash none) = _
    rw [hzero]
  · rw [← hkey p]
    rfl

theorem createConnection_UID (h : Helpers) (p : Packet) :
    (createConnection h p).UID = h.calcMd5 (h.connString {}) := by
  unfold createConnection
  cases p.linkLayer <;> cases p.networkLayer <;> cases p.transportLayer <;>
    cases p.applicationLayer <;> rfl

theorem lookupConn_mem (items : List (String × Conn)) (key : String) (conn : Conn)
    (hl : lookupConn items key = some conn) : ∃ e ∈ items, e.2 = conn := by
  induction items with
  | nil => simp [lookupConn] at hl
  | cons e rest ih =>
    by_cases hk : e.1 = key
    · simp only [lookupConn, hk, if_true, Option.some.injEq] at hl
      exact ⟨e, List.mem_cons_self _ _, hl⟩
    · simp only [lookupConn, hk, if_false] at hl
      obtain ⟨e', he', h'⟩ := ih hl
      exact ⟨e', List.mem_cons_of_mem _ he', h'⟩

theorem uidInv_connectionDecoder (h : Helpers) (w : Bool) :
    UidInv h (connectionDecoder w) := by
  constructor <;> intro x hx <;> simp [connectionDecoder] at hx

theorem handlePacket_uidInv (h : Helpers) (c : Config) (cd : ConnectionDecoder) (p : Packet)
    (hcd : UidInv h cd) : UidInv h (handlePacket h c cd p) := by
  cases hl : lookupConn cd.Items (connIDOf p).String with
  | some conn =>
    rw [handlePacket_hit h c cd p conn hl]
    refine ⟨?_, hcd.2⟩
    intro e he
    simp only [storeConn, List.mem_map] at he
    obtain ⟨e0, he0, rfl⟩ := he
    by_cases hk : e0.1 = (connIDOf p).String
    · simp only [hk, if_true]
      obtain ⟨e1, he1, h1⟩ := lookupConn_mem _ _ _ hl
      rw [updateConnection_UID, ← h1]
      exact hcd.1 e1 he1
    · simp only [hk, if_false]
      exact hcd.1 e0 he0
  | none =>
    have hins : UidInv h (insertConnection h cd (connIDOf p).String p) := by
      refine ⟨?_, hcd.2⟩
      intro e he
      simp only [insertConnection, List.mem_append, List.mem_singleton] at he
      rcases he with he | rfl
      · exact hcd.1 e he
      · exact createConnection_UID h p
    rw [handlePacket_miss h c cd p hl]
    split
    · constructor
      · intro e he
        rw [flush_Items] at he
        exact hins.1 e (List.mem_of_mem_filter he)
      · intro r hr
        rw [flush_records, List.mem_append] at hr
        rcases hr with hr | hr
        · exact hins.2 r hr
        · obtain ⟨e, he, rfl⟩ := List.mem_map.mp hr
          exact hins.1 e (List.mem_of_mem_filter he)
    · exact hins

theorem feed_uidInv (h : Helpers) (c : Config) (ps : List Packet) (cd : ConnectionDecoder)
    (hcd : UidInv h cd) : UidInv h (feed h c cd ps) := by
  induction ps generalizing cd with
  | nil => exact hcd
  | cons p rest ih => exact ih _ (handlePacket_uidInv h c cd p hcd)

/-- C20: the record a miss creates has `UID = calcMd5` of the string form of
the empty record, whatever the packet; the hit branch never changes `UID`;
hence after any packet sequence fed to the empty tracker, with any
configuration, every connection in the map and every connection in the sink
has that same `UID`. -/
theorem UID_is_md5_of_empty_record (h : Helpers) (c : Config) (w : Bool) (ps : List Packet) :
    (∀ p : Packet, (createConnection h p).UID = h.calcMd5 (h.connString {})) ∧
      (∀ (conn : Connection) (p : Packet), (updateConnection h conn p).UID = conn.UID) ∧
      ((feed h c (connectionDecoder w) ps).Items.map fun e => e.2.Connection.UID) =
        List.replicate (feed h c (connectionDecoder w) ps).Items.length
          (h.calcMd5 (h.connString {})) ∧
      ((feed h c (connectionDecoder w) ps).writer.records.map fun r => r.Connection.UID) =
        List.replicate (feed h c (connectionDecoder w) ps).writer.records.length
          (h.calcMd5 (h.connString {})) := by
  have hinv := feed_uidInv h c ps _ (uidInv_connectionDecoder h w)
  refine ⟨createConnection_UID h, updateConnection_UID h, ?_, ?_⟩
  · refine List.eq_replicate_iff.mpr ⟨by simp, ?_⟩
    intro u hu
    obtain ⟨e, he, rfl⟩ := List.mem_map.mp hu
    exact hinv.1 e he
  · refine List.eq_replicate_iff.mpr ⟨by simp, ?_⟩
    intro u hu
    obtain ⟨r, hr, rfl⟩ := List.mem_map.mp hu
    exact hinv.2 r hr

/-! ## Lemmas on the counters of the hit branch -/

theorem wrapInt32_of_inRange (x : Int) (h1 : -2147483648 ≤ x) (h2 : x ≤ 2147483647) :
    wrapInt32 x = x := by
  unfold wrapInt32
  omega

theorem wrapInt32_add_wrapInt32 (x y : Int) :
    wrapInt32 (x + wrapInt32 y) = wrapInt32 (x + y) := by
  unfold wrapInt32
  omega

theorem wrapInt32_wrapInt32_add (x y : Int) :
    wrapInt32 (wrapInt32 x + y) = wrapInt32 (x + y) := by
  unfold wrapInt32
  omega

theorem rewriteEndpoints_protos (conn : Connection) (p : Packet) :
    (rewriteEndpoints conn p).LinkProto = conn.LinkProto ∧
    (rewriteEndpoints conn p).NetworkProto = conn.NetworkProto ∧
    (rewriteEndpoints conn p).TransportProto = conn.TransportProto ∧
    (rewriteEndpoints conn p).ApplicationProto = conn.ApplicationProto ∧
    (rewriteEndpoints conn p).AppPayloadSize = conn.AppPayloadSize := by
  unfold rewriteEndpoints
  cases p.linkLayer <;> cases p.networkLayer <;> cases p.transportLayer <;>
    exact ⟨rfl, rfl, rfl, rfl, rfl⟩

/-- The fields the hit branch sets on every path, and the ones it never
sets. -/
theorem updateConnection_counters (h : Helpers) (conn : Connection) (p : Packet) :
    (updateConnection h conn p).NumPackets = wrapInt32 (conn.NumPackets + 1) ∧
    (updateConnection h conn p).TotalSize
      = wrapInt32 (conn.TotalSize + wrapInt32 p.data.length) ∧
    (updateConnection h conn p).LinkProto = conn.LinkProto ∧
    (updateConnection h conn p).NetworkProto = conn.NetworkProto ∧
    (updateConnection h conn p).TransportProto = conn.TransportProto ∧
    (updateConnection h conn p).ApplicationProto = conn.ApplicationProto ∧
    (updateConnection h conn p).AppPayloadSize = conn.AppPayloadSize := by
  have hf := rewriteEndpoints_frame { conn with TimestampFirst := h.TimeToString p.timestamp } p
  have hp := rewriteEndpoints_protos { conn with TimestampFirst := h.TimeToString p.timestamp } p
  simp only [] at hf hp
  unfold updateConnection
  cases h1 : (h.StringToTime conn.TimestampFirst).Before p.timestamp
  · simp only [h1, Bool.not_false, if_true]
    cases h2 : (h.StringToTime (rewriteEndpoints
        { conn with TimestampFirst := h.TimeToString p.timestamp } p).TimestampLast).Before
        p.timestamp
    · simp only [h2, Bool.false_eq_true, if_false, if_true]
      exact ⟨by rw [hf.2.2.2.1], by rw [hf.2.2.2.2.1], hp.1, hp.2.1, hp.2.2.1, hp.2.2.2.1,
        hp.2.2.2.2⟩
    · simp only [h2, if_true]
      exact ⟨by rw [hf.2.2.2.1], by rw [hf.2.2.2.2.1], hp.1, hp.2.1, hp.2.2.1, hp.2.2.2.1,
        hp.2.2.2.2⟩
  · simp only [h1, Bool.not_true, Bool.false_eq_true, if_false]
    cases h2 : (h.StringToTime conn.TimestampLast).Before p.timestamp
    · simp only [h2, Bool.false_eq_true, if_false]
      simp
    · simp only [h2, if_true]
      simp

/-- The hit branch for a packet strictly after `TimestampFirst` and not after
`TimestampLast`: only the two counters change. -/
theorem updateConnection_between (h : Helpers) (conn : Connection) (p : Packet)
    (h1 : h.StringToTime conn.TimestampFirst < p.timestamp)
    (h2 : p.timestamp ≤ h.StringToTime conn.TimestampLast) :
    updateConnection h conn p =
      { conn with
        NumPackets := wrapInt32 (conn.NumPackets + 1)
        TotalSize := wrapInt32 (conn.TotalSize + wrapInt32 p.data.length) } := by
  have hb1 : (h.StringToTime conn.TimestampFirst).Before p.timestamp = true := by
    simp [Time.Before, h1]
  have hb2 : (h.StringToTime conn.TimestampLast).Before p.timestamp = false := by
    simp [Time.Before, h2]
  unfold updateConnection
  simp only [hb1, hb2, Bool.not_true, Bool.false_eq_true, if_false]

theorem lookupConn_storeConn_other (items : List (String × Conn)) (key k : String)
    (c : Connection) (hk : k ≠ key) :
    lookupConn (storeConn items key c) k = lookupConn items k := by
  have hkk : ¬ key = k := fun h' => hk h'.symm
  induction items with
  | nil => rfl
  | cons e rest ih =>
    simp only [storeConn] at ih
    by_cases he : e.1 = key
    · simp [storeConn, lookupConn, he, ih, hkk]
    · by_cases hek : e.1 = k
      · simp [storeConn, lookupConn, he, hek, hk]
      · simp [storeConn, lookupConn, he, hek, ih]

/-- Feeding `n` copies of a packet that lies strictly after `TimestampFirst`
and not after `TimestampLast` of its connection: the timestamps stay and the
two counters advance `n` times in 32-bit arithmetic. -/
theorem feed_replicate_between (h : Helpers) (c : Config) (p : Packet) (n : Nat)
    (cd : ConnectionDecoder) (conn : Conn)
    (hl : lookupConn cd.Items (connIDOf p).String = some conn)
    (h1 : h.StringToTime conn.Connection.TimestampFirst < p.timestamp)
    (h2 : p.timestamp ≤ h.StringToTime conn.Connection.TimestampLast)
    (hN : wrapInt32 conn.Connection.NumPackets = conn.Connection.NumPackets)
    (hT : wrapInt32 conn.Connection.TotalSize = conn.Connection.TotalSize) :
    ∃ conn', lookupConn (feed h c cd (List.replicate n p)).Items (connIDOf p).String
        = some conn' ∧
      conn'.Connection.TimestampFirst = conn.Connection.TimestampFirst ∧
      conn'.Connection.TimestampLast = conn.Connection.TimestampLast ∧
      conn'.Connection.NumPackets = wrapInt32 (conn.Connection.NumPackets + n) ∧
      conn'.Connection.TotalSize
        = wrapInt32 (conn.Connection.TotalSize + n * wrapInt32 p.data.length) := by
  induction n generalizing cd conn with
  | zero =>
    refine ⟨conn, hl, rfl, rfl, ?_, ?_⟩
    · simpa using hN.symm
    · simpa using hT.symm
  | succ n ih =>
    have hstep : lookupConn (handlePacket h c cd p).Items (connIDOf p).String
        = some { conn with Connection := updateConnection h conn.Connection p } := by
      rw [handlePacket_hit h c cd p conn hl]
      exact lookupConn_storeConn _ _ conn _ hl
    have hupd := updateConnection_between h conn.Connection p h1 h2
    obtain ⟨conn', hl', hF, hL, hNP, hTS⟩ :=
      ih (handlePacket h c cd p) { conn with Connection := updateConnection h conn.Connection p }
        hstep (by rw [hupd]; exact h1) (by rw [hupd]; exact h2)
        (by rw [hupd]; simp only []; unfold wrapInt32; omega)
        (by rw [hupd]; simp only []; unfold wrapInt32; omega)
    refine ⟨conn', ?_, ?_, ?_, ?_, ?_⟩
    · simpa [feed, List.replicate_succ] using hl'
    · rw [hF, hupd]
    · rw [hL, hupd]
    · rw [hNP, hupd]
      simp only []
      rw [wrapInt32_wrapInt32_add]
      congr 1
      push_cast
      ring
    · rw [hTS, hupd]
      simp only []
      rw [wrapInt32_wrapInt32_add]
      congr 1
      push_cast
      ring

/-! ## The claims on the counters and the frame of a hit -/

/-- C21, as stated, fails: the connection of `pktA` and `pktLate` receives
32768 packets of 65535 bytes, after which `TotalSize = 2147450890`; one more
such packet makes `TotalSize = -2147450871`, less than before: the 32-bit sum
wrapped around. -/
theorem TotalSize_wraps_past_two_gigabytes :
    (tracked (feed sampleHelpers noFlush trackerAL (List.replicate 32768 pktBulk)) pktBulk).map
        (fun conn => conn.TotalSize) = some 2147450890 ∧
      (tracked (handlePacket sampleHelpers noFlush
          (feed sampleHelpers noFlush trackerAL (List.replicate 32768 pktBulk)) pktBulk)
          pktBulk).map (fun conn => conn.TotalSize) = some (-2147450871) := by
  have hlen : (pktBulk.data.length : Int) = 65535 := by
    show ((List.replicate 65535 (0 : UInt8)).length : Int) = 65535
    rw [List.length_replicate]
    rfl
  obtain ⟨conn', hl', _, _, _, hTS⟩ :=
    feed_replicate_between sampleHelpers noFlush pktBulk 32768 trackerAL connAL
      (by decide) (by decide) (by decide) (by decide) (by decide)
  have hT0 : connAL.Connection.TotalSize = 10 := by decide
  have hbefore : conn'.Connection.TotalSize = 2147450890 := by
    rw [hTS, hlen, hT0]
    decide
  constructor
  · unfold tracked
    rw [hl']
    exact congrArg some hbefore
  · rw [tracked_handlePacket_hit sampleHelpers noFlush _ pktBulk conn' hl']
    show some (updateConnection sampleHelpers conn'.Connection pktBulk).TotalSize = _
    rw [(updateConnection_counters sampleHelpers _ pktBulk).2.1, hbefore, hlen]
    decide

/-- C21, amended: for every tracked connection and every packet of its flow,
as long as `TotalSize` plus `len(packet.Data())` does not exceed 2147483647
(the largest 32-bit signed integer), `TotalSize` after `handlePacket` is
`TotalSize` before plus `len(packet.Data())`, so it is not less than before.
(Beyond that bound the 32-bit sum wraps around.) -/
theorem TotalSize_nondecreasing_below_int32_max (h : Helpers) (c : Config)
    (cd : ConnectionDecoder) (p : Packet) (conn : Conn)
    (htracked : lookupConn cd.Items (connIDOf p).String = some conn)
    (hint32 : -2147483648 ≤ conn.Connection.TotalSize)
    (hfits : conn.Connection.TotalSize + p.data.length ≤ 2147483647) :
    ∃ conn', lookupConn (handlePacket h c cd p).Items (connIDOf p).String = some conn' ∧
      conn'.Connection.TotalSize = conn.Connection.TotalSize + p.data.length ∧
      conn.Connection.TotalSize ≤ conn'.Connection.TotalSize := by
  refine ⟨{ conn with Connection := updateConnection h conn.Connection p }, ?_, ?_, ?_⟩
  · rw [handlePacket_hit h c cd p conn htracked]
    exact lookupConn_storeConn _ _ conn _ htracked
  · show (updateConnection h conn.Connection p).TotalSize = _
    rw [(updateConnection_counters h conn.Connection p).2.1, wrapInt32_add_wrapInt32]
    exact wrapInt32_of_inRange _ (by omega) hfits
  · show _ ≤ (updateConnection h conn.Connection p).TotalSize
    rw [(updateConnection_counters h conn.Connection p).2.1, wrapInt32_add_wrapInt32,
      wrapInt32_of_inRange _ (by omega) hfits]
    omega

/-- C21, amended, at a concrete input: `pktB` (40 bytes) arrives for the
connection of `pktA` and `pktLate`, whose `TotalSize` is 10. -/
theorem TotalSize_nondecreasing_below_int32_max_witness :
    lookupConn trackerAL.Items (connIDOf pktB).String = some connAL ∧
      -2147483648 ≤ connAL.Connection.TotalSize ∧
      connAL.Connection.TotalSize + pktB.data.length ≤ 2147483647 ∧
      ∃ conn', lookupConn (handlePacket sampleHelpers noFlush trackerAL pktB).Items
          (connIDOf pktB).String = some conn' ∧
        conn'.Connection.TotalSize = connAL.Connection.TotalSize + pktB.data.length ∧
        connAL.Connection.TotalSize ≤ conn'.Connection.TotalSize :=
  ⟨by decide, by decide, by decide,
    TotalSize_nondecreasing_below_int32_max sampleHelpers noFlush trackerAL pktB connAL
      (by decide) (by decide) (by decide)⟩

/-- C28, as stated, fails: the connection of `pktA` and `pktLate` receives
2147483646 packets, after which `NumPackets = 2147483647`; the next packet of
the flow, a hit, makes `NumPackets = -2147483648`, not one more. -/
theorem NumPackets_wraps_at_int32_max :
    (tracked (feed sampleHelpers noFlush trackerAL (List.replicate 2147483646 pktMid))
        pktMid).map (fun conn => conn.NumPackets) = some 2147483647 ∧
      (tracked (handlePacket sampleHelpers noFlush
          (feed sampleHelpers noFlush trackerAL (List.replicate 2147483646 pktMid)) pktMid)
          pktMid).map (fun conn => conn.NumPackets) = some (-2147483648) := by
  obtain ⟨conn', hl', _, _, hNP, _⟩ :=
    feed_replicate_between sampleHelpers noFlush pktMid 2147483646 trackerAL connAL
      (by decide) (by decide) (by decide) (by decide) (by decide)
  have hN0 : connAL.Connection.NumPackets = 1 := by decide
  have hbefore : conn'.Connection.NumPackets = 2147483647 := by
    rw [hNP, hN0]
    decide
  constructor
  · unfold tracked
    rw [hl']
    exact congrArg some hbefore
  · rw [tracked_handlePacket_hit sampleHelpers noFlush _ pktMid conn' hl']
    show some (updateConnection sampleHelpers conn'.Connection pktMid).NumPackets = _
    rw [(updateConnection_counters sampleHelpers _ pktMid).1, hbefore]
    decide

/-- C28, amended: a `handlePacket` call that hits an existing connection keeps
the connection object under its key and never changes `UID`, `LinkProto`,
`NetworkProto`, `TransportProto`, `ApplicationProto` or `AppPayloadSize`;
`NumPackets` grows by one in 32-bit signed arithmetic, which is exactly +1
unless it is 2147483647; `TotalSize` becomes the 32-bit sum with
`int32(len(packet.Data()))`; when `TimestampFirst < packet.ts <=
TimestampLast` the timestamps, `Duration` and the six endpoint fields are
unchanged too. The connections under every other key, the keys and addresses
of the map and the writer are unchanged. -/
theorem hit_changes_only_its_connection (h : Helpers) (c : Config) (cd : ConnectionDecoder)
    (p : Packet) (conn : Conn)
    (hhit : lookupConn cd.Items (connIDOf p).String = some conn) :
    ∃ conn', lookupConn (handlePacket h c cd p).Items (connIDOf p).String = some conn' ∧
      conn'.ptr = conn.ptr ∧
      conn'.Connection.UID = conn.Connection.UID ∧
      conn'.Connection.LinkProto = conn.Connection.LinkProto ∧
      conn'.Connection.NetworkProto = conn.Connection.NetworkProto ∧
      conn'.Connection.TransportProto = conn.Connection.TransportProto ∧
      conn'.Connection.ApplicationProto = conn.Connection.ApplicationProto ∧
      conn'.Connection.AppPayloadSize = conn.Connection.AppPayloadSize ∧
      conn'.Connection.NumPackets = wrapInt32 (conn.Connection.NumPackets + 1) ∧
      (-2147483648 ≤ conn.Connection.NumPackets ∧ conn.Connection.NumPackets < 2147483647 →
        conn'.Connection.NumPackets = conn.Connection.NumPackets + 1) ∧
      conn'.Connection.TotalSize
        = wrapInt32 (conn.Connection.TotalSize + wrapInt32 p.data.length) ∧
      (h.StringToTime conn.Connection.TimestampFirst < p.timestamp ∧
          p.timestamp ≤ h.StringToTime conn.Connection.TimestampLast →
        conn'.Connection =
          { conn.Connection with
            NumPackets := conn'.Connection.NumPackets
            TotalSize := conn'.Connection.TotalSize }) ∧
      (∀ k : String, k ≠ (connIDOf p).String →
        lookupConn (handlePacket h c cd p).Items k = lookupConn cd.Items k) ∧
      itemIds (handlePacket h c cd p) = itemIds cd ∧
      (handlePacket h c cd p).writer = cd.writer := by
  have hc := updateConnection_counters h conn.Connection p
  have hkeep := handlePacket_hit_keeps h c cd p conn hhit
  refine ⟨{ conn with Connection := updateConnection h conn.Connection p }, ?_, rfl,
    updateConnection_UID h conn.Connection p, hc.2.2.1, hc.2.2.2.1, hc.2.2.2.2.1,
    hc.2.2.2.2.2.1, hc.2.2.2.2.2.2, hc.1, ?_, hc.2.1, ?_, ?_, hkeep.2, hkeep.1⟩
  · rw [handlePacket_hit h c cd p conn hhit]
    exact lookupConn_storeConn _ _ conn _ hhit
  · intro hr
    show (updateConnection h conn.Connection p).NumPackets = _
    rw [hc.1]
    exact wrapInt32_of_inRange _ (by omega) (by omega)
  · intro hb
    show updateConnection h conn.Connection p = _
    rw [updateConnection_between h conn.Connection p hb.1 hb.2]
  · intro k hk
    rw [handlePacket_hit h c cd p conn hhit]
    exact lookupConn_storeConn_other _ _ _ _ hk

/-- C28, amended, at a concrete input: `pktMid` (`ts = 150`) hits the
connection of `pktA` and `pktLate` (`TimestampFirst = 100`,
`TimestampLast = 200`, `NumPackets = 1`). -/
theorem hit_changes_only_its_connection_witness :
    lookupConn trackerAL.Items (connIDOf pktMid).String = some connAL ∧
      ∃ conn', lookupConn (handlePacket sampleHelpers noFlush trackerAL pktMid).Items
          (connIDOf pktMid).String = some conn' ∧
        conn'.Connection.UID = connAL.Connection.UID ∧
        conn'.Connection.NumPackets = wrapInt32 (connAL.Connection.NumPackets + 1) := by
  refine ⟨by decide, ?_⟩
  obtain ⟨conn', h1, _, h3, _, _, _, _, _, h9, _⟩ :=
    hit_changes_only_its_connection sampleHelpers noFlush trackerAL pktMid connAL (by decide)
  exact ⟨conn', h1, h3, h9⟩

/-! ## The claims on the TLS server hello encoder -/

/-- C25, at a failing input: for `pktHello`, a server hello sent from port 443
to port 51000, the record has `SrcPort = 443` and `DstPort = 443`; the IP and
MAC endpoints do match the packet. For every hello and every packet with the
three layers, `DstPort` and `SrcPort` are both read from the transport
source. -/
theorem server_hello_DstPort_is_source_port :
    (∀ (hello : ServerHello) (tts : Time → String) (ja3 : ServerHello → String) (ts : Time)
        (data : List UInt8) (ll nl tl : FlowLayer) (al : Option ApplicationLayer),
        (tlsServerHelloEncoder ⟨fun _ => some hello, tts, ja3⟩
            ⟨ts, data, some ll, some nl, some tl, al⟩).map
          (Option.map fun r => (r.SrcPort, r.DstPort))
        = Except.ok (some (wrapInt32 (Atoi tl.flow.src), wrapInt32 (Atoi tl.flow.src)))) ∧
      pktHello.transportLayer.map (fun l => (Atoi l.flow.src, Atoi l.flow.dst))
        = some (443, 51000) ∧
      (tlsServerHelloEncoder sampleEncoderHelpers pktHello).map
          (Option.map fun r => ((r.SrcPort, r.DstPort), (r.SrcIP, r.DstIP), (r.SrcMAC, r.DstMAC)))
        = Except.ok (some ((443, 443), ("93.184.216.34", "10.0.0.5"),
            ("aa:aa:aa:aa:aa:aa", "bb:bb:bb:bb:bb:bb"))) :=
  ⟨fun _ _ _ _ _ _ _ _ _ => rfl, by decide, rfl⟩

theorem encoder_panics_without_link (hello : ServerHello) (tts : Time → String)
    (ja3 : ServerHello → String) (p : Packet) :
    tlsServerHelloEncoder ⟨fun _ => some hello, tts, ja3⟩ { p with linkLayer := none }
      = Except.error nilPointerDereference := by
  unfold tlsServerHelloEncoder
  cases p.transportLayer <;> cases p.networkLayer <;> rfl

theorem encoder_panics_without_network (hello : ServerHello) (tts : Time → String)
    (ja3 : ServerHello → String) (p : Packet) :
    tlsServerHelloEncoder ⟨fun _ => some hello, tts, ja3⟩ { p with networkLayer := none }
      = Except.error nilPointerDereference := by
  unfold tlsServerHelloEncoder
  cases p.transportLayer <;> rfl

theorem encoder_panics_without_transport (hello : ServerHello) (tts : Time → String)
    (ja3 : ServerHello → String) (p : Packet) :
    tlsServerHelloEncoder ⟨fun _ => some hello, tts, ja3⟩ { p with transportLayer := none }
      = Except.error nilPointerDereference := rfl

/-- C26, at a failing input: for `pktHelloRawIP`, a packet in which a server
hello is parsed and the link layer is absent, the handler does not return: it
panics on the nil link layer. For every parsed hello and every packet, the
handler panics as soon as the link, the network or the transport layer is
absent. -/
theorem server_hello_panics_on_absent_layer :
    (∀ (hello : ServerHello) (tts : Time → String) (ja3 : ServerHello → String) (p : Packet),
        tlsServerHelloEncoder ⟨fun _ => some hello, tts, ja3⟩ { p with linkLayer := none }
          = Except.error nilPointerDereference ∧
        tlsServerHelloEncoder ⟨fun _ => some hello, tts, ja3⟩ { p with networkLayer := none }
          = Except.error nilPointerDereference ∧
        tlsServerHelloEncoder ⟨fun _ => some hello, tts, ja3⟩ { p with transportLayer := none }
          = Except.error nilPointerDereference) ∧
      sampleEncoderHelpers.GetServerHello pktHelloRawIP = some sampleHello ∧
      pktHelloRawIP.linkLayer = none ∧
      tlsServerHelloEncoder sampleEncoderHelpers pktHelloRawIP
        = Except.error nilPointerDereference :=
  ⟨fun hello tts ja3 p => ⟨encoder_panics_without_link hello tts ja3 p,
      encoder_panics_without_network hello tts ja3 p,
      encoder_panics_without_transport hello tts ja3 p⟩,
    rfl, rfl, rfl⟩

/-! ## The claims on the maltego transforms and entities -/

theorem len_append (a b : String) : len (a ++ b) = len a + len b := by
  obtain ⟨a⟩ := a
  obtain ⟨b⟩ := b
  show String.utf8Len (a ++ b) = String.utf8Len a + String.utf8Len b
  exact String.utf8Len_append a b

/-- C29: for every `Vulnerability` record the guard `len(product) > 0` holds,
since `product` contains " / "; the value of the entity is
`ID + "\n" + Product + " / " + Version`, which is `ID + "\n / "` when
`Product` and `Version` are both empty, and it is never the bare `ID`. -/
theorem vulnerability_value_always_has_product (toUTC : Int → String) (strict : String)
    (vuln : Vulnerability) (path : String) :
    len (vuln.Software.Product ++ " / " ++ vuln.Software.Version) > 0 ∧
      (toSoftwareVulnerabilities toUTC strict vuln path).value
        = vuln.ID ++ "\n" ++ vuln.Software.Product ++ " / " ++ vuln.Software.Version ∧
      (toSoftwareVulnerabilities toUTC strict
          { vuln with Software := { vuln.Software with Product := "", Version := "" } } path).value
        = vuln.ID ++ "\n / " ∧
      (toSoftwareVulnerabilities toUTC strict vuln path).value ≠ vuln.ID := by
  have hguard : ∀ a b : String, len (a ++ " / " ++ b) > 0 := by
    intro a b
    rw [len_append, len_append]
    have : len " / " = 3 := by decide
    omega
  have hval : ∀ v : Vulnerability, (toSoftwareVulnerabilities toUTC strict v path).value
      = v.ID ++ "\n" ++ v.Software.Product ++ " / " ++ v.Software.Version := by
    intro v
    unfold toSoftwareVulnerabilities
    simp only []
    rw [if_pos (hguard _ _)]
    simp only [String.append_assoc]
  refine ⟨hguard _ _, hval vuln, ?_, ?_⟩
  · rw [hval]
    simp only [String.append_assoc]
    rfl
  · rw [hval]
    intro heq
    have hlen := congrArg String.length heq
    simp only [String.length_append] at hlen
    have : ("\n" : String).length = 1 := by decide
    omega

/-- C30, at the failing entry: the names of the table are pairwise distinct,
but the entry `HTTPParameter` has an empty description and, as parent, the
text "A HTTP request parameter name", which is neither empty, nor an
identifier starting with "maltego.", nor "netcap." followed by the name of an
entry. It is the only entry that is not well formed. -/
theorem entities_HTTPParameter_is_ill_formed :
    (entities.map fun e => e.Name).Nodup ∧
      entities.filter (fun e => !e.wellFormed entities)
        = [⟨"HTTPParameter", "live_help", "", "A HTTP request parameter name", []⟩] := by
  decide

/-- C27: when the type in the file header is not `NC_Service`,
`ServiceTransform` ends in a failure and none of its steps is a `Next` read or
a call of `count` or `transform`; likewise `SoftwareTransform` when the type
is not `NC_Software`. This holds whether `count` is nil or not and whatever
else is wrong with the file. -/
theorem transforms_refuse_type_mismatch {R : Type} (typeString : RecordType → String)
    (implementsAuditRecord : Bool) (count : Option (R → String → Nat × Nat → Nat × Nat))
    (mac : String) (file : AuditFile R) :
    (file.headerType ≠ RecordType.NC_Service →
      (∃ f, (ServiceTransform typeString implementsAuditRecord count mac file).2
          = Except.error f) ∧
        (ServiceTransform typeString implementsAuditRecord count mac file).1.all
          (fun e => !e.touchesRecord) = true) ∧
    (∀ ext1 ext2 err1 err2 : String, file.headerType ≠ RecordType.NC_Software →
      (∃ f, (SoftwareTransform typeString ext1 ext2 err1 err2 implementsAuditRecord count mac
          file).2 = Except.error f) ∧
        (SoftwareTransform typeString ext1 ext2 err1 err2 implementsAuditRecord count mac
          file).1.all (fun e => !e.touchesRecord) = true) := by
  constructor
  · intro hne
    unfold ServiceTransform
    cases file.openError with
    | some err => exact ⟨⟨_, rfl⟩, rfl⟩
    | none =>
      simp only []
      split
      · exact ⟨⟨_, rfl⟩, rfl⟩
      · cases file.archiveError with
        | some err => exact ⟨⟨_, rfl⟩, rfl⟩
        | none =>
          cases file.headerError with
          | some err => exact ⟨⟨_, rfl⟩, rfl⟩
          | none =>
            simp only [hne, ne_eq, not_false_eq_true, if_true]
            exact ⟨⟨_, rfl⟩, rfl⟩
  · intro ext1 ext2 err1 err2 hne
    unfold SoftwareTransform
    cases file.openError with
    | some err => exact ⟨⟨_, rfl⟩, rfl⟩
    | none =>
      simp only []
      split
      · exact ⟨⟨_, rfl⟩, rfl⟩
      · cases file.archiveError with
        | some err => exact ⟨⟨_, rfl⟩, rfl⟩
        | none =>
          cases file.headerError with
          | some err => exact ⟨⟨_, rfl⟩, rfl⟩
          | none =>
            simp only [hne, ne_eq, not_false_eq_true, if_true]
            exact ⟨⟨_, rfl⟩, rfl⟩

/-- C27, at a concrete input: `ServiceTransform` on a file of Software records
and `SoftwareTransform` on a file of Service records, each with two records
and a `count` callback. -/
theorem transforms_refuse_type_mismatch_witness :
    softwareFile.headerType ≠ RecordType.NC_Service ∧
      serviceFile.headerType ≠ RecordType.NC_Software ∧
      (ServiceTransform sampleTypeString true
          (some fun r _ mm => (min mm.1 r, max mm.2 r)) "" softwareFile).1.all
        (fun e => !e.touchesRecord) = true ∧
      (SoftwareTransform sampleTypeString ".ncap.gz" ".ncap" "unexpected file type"
          "unexpected read failure" true
          (some fun r _ mm => (min mm.1 r, max mm.2 r)) "" serviceFile).1.all
        (fun e => !e.touchesRecord) = true :=
  ⟨by decide, by decide,
    ((transforms_refuse_type_mismatch sampleTypeString true
      (some fun r _ mm => (min mm.1 r, max mm.2 r)) "" softwareFile).1 (by decide)).2,
    ((transforms_refuse_type_mismatch sampleTypeString true
      (some fun r _ mm => (min mm.1 r, max mm.2 r)) "" serviceFile).2 ".ncap.gz" ".ncap"
      "unexpected file type" "unexpected read failure" (by decide)).2⟩

/-! ## The claims on the TCP stream processor -/

/-- One `handleStream` call on a pool whose cursor is the index `i` of one of
its `numWorkers = len(workers)` workers. -/
theorem handleStream_step (tsp : tcpStreamProcessor) (s : Option StreamReader) (i : Nat)
    (hlen : tsp.numWorkers = (tsp.workers.length : Int))
    (hint : tsp.numWorkers ≤ 9223372036854775807)
    (hnext : tsp.next = (i : Int)) (hi : i < tsp.workers.length) :
    handleStream tsp s = some
      { tsp with
        wg := tsp.wg + 1
        workers := tsp.workers.set i (tsp.workers.getD i [] ++ [s])
        next := (((i + 1) % tsp.workers.length : Nat) : Int) } := by
  have hwrap : wrapInt64 ((i : Int) + 1) = (i : Int) + 1 := by
    unfold wrapInt64
    omega
  have hcond : 0 ≤ (i : Int) ∧ (i : Int) < (tsp.workers.length : Int) := by omega
  unfold handleStream
  simp only [hnext, hcond, and_self, if_true, Int.toNat_ofNat, hwrap, hlen]
  by_cases hlast : (tsp.workers.length : Int) = (i : Int) + 1
  · have hmod : (i + 1) % tsp.workers.length = 0 := by
      have : tsp.workers.length = i + 1 := by omega
      rw [this, Nat.mod_self]
    simp [hlast, hmod]
  · have hmod : (i + 1) % tsp.workers.length = i + 1 := Nat.mod_eq_of_lt (by omega)
    simp [hlast, hmod]

theorem getD_set_queue {α : Type} (l : List (List α)) (i j : Nat) (v : List α)
    (hi : i < l.length) :
    (l.set i v).getD j [] = if j = i then v else l.getD j [] := by
  by_cases hj : j = i
  · subst hj
    simp [List.getD_eq_getElem?_getD, List.getElem?_set, hi]
  · have hji : ¬ i = j := fun h' => hj h'.symm
    simp [List.getD_eq_getElem?_getD, List.getElem?_set, hj, hji]

/-- A sequence of `handleStream` calls on a pool whose cursor is `c mod n`,
`n = numWorkers = len(workers)`: the call number `k` (from 0) goes to worker
`(c + k) mod n`. -/
theorem handleStreams_from (ss : List (Option StreamReader)) :
    ∀ (tsp : tcpStreamProcessor) (c : Nat),
      tsp.numWorkers = (tsp.workers.length : Int) →
      tsp.numWorkers ≤ 9223372036854775807 →
      0 < tsp.workers.length →
      tsp.next = ((c % tsp.workers.length : Nat) : Int) →
      ∃ tsp', handleStreams tsp ss = some tsp' ∧
        tsp'.workers.length = tsp.workers.length ∧
        tsp'.numWorkers = tsp.numWorkers ∧
        tsp'.next = (((c + ss.length) % tsp.workers.length : Nat) : Int) ∧
        tsp'.wg = tsp.wg + ss.length ∧
        ∀ j : Nat, j < tsp.workers.length →
          tsp'.workers.getD j [] = tsp.workers.getD j [] ++
            ((ss.enumFrom c).filter fun x => decide (x.1 % tsp.workers.length = j)).map
              Prod.snd := by
  induction ss with
  | nil =>
    intro tsp c _ _ _ hnext
    exact ⟨tsp, rfl, rfl, rfl, by simpa using hnext, by simp, by simp⟩
  | cons s ss ih =>
    intro tsp c hlen hint hpos hnext
    have hi : c % tsp.workers.length < tsp.workers.length := Nat.mod_lt _ hpos
    have hstep := handleStream_step tsp s (c % tsp.workers.length) hlen hint hnext hi
    obtain ⟨tsp', hrun, hl', hn', hnx', hwg', hq'⟩ :=
      ih { tsp with
            wg := tsp.wg + 1
            workers := tsp.workers.set (c % tsp.workers.length)
              (tsp.workers.getD (c % tsp.workers.length) [] ++ [s])
            next := (((c % tsp.workers.length + 1) % tsp.workers.length : Nat) : Int) }
        (c + 1)
        (by simpa using hlen) hint (by simpa using hpos)
        (by simp [Nat.mod_add_mod])
    simp only [List.length_set] at hl' hnx' hq'
    refine ⟨tsp', ?_, hl', hn', ?_, ?_, ?_⟩
    · simp only [handleStreams, hstep, Option.bind_some]
      exact hrun
    · rw [hnx']
      simp only [List.length_cons]
      congr 2
      omega
    · rw [hwg']
      simp only [List.length_cons]
      push_cast
      omega
    · intro j hj
      rw [hq' j hj, getD_set_queue _ _ _ _ hi]
      simp only [List.enumFrom_cons, List.filter_cons]
      by_cases hcj : c % tsp.workers.length = j
      · simp [hcj]
      · have hjc : ¬ j = c % tsp.workers.length := fun h' => hcj h'.symm
        simp [hcj, hjc]

/-- C22: for a pool with `numWorkers = len(workers) >= 1` (a Go `int`) and a
cursor `0 <= next < numWorkers`, a `handleStream` call does not panic, appends
the stream to the channel of `workers[next]` and to no other channel, adds one
to the wait counter, and sets `next` to `(next + 1) mod numWorkers`, which is
again within bounds; and from `next = 0`, after any sequence of calls the
channel of worker `j` has received exactly the streams of the calls number
`k` (from 0) with `k mod numWorkers = j`, in order, the wait counter has
grown by the number of calls, and the cursor is within bounds. -/
theorem round_robin_dispatch (tsp : tcpStreamProcessor) (s : Option StreamReader)
    (hlen : tsp.numWorkers = (tsp.workers.length : Int))
    (hint : tsp.numWorkers ≤ 9223372036854775807)
    (hworkers : 1 ≤ tsp.numWorkers) (hlow : 0 ≤ tsp.next) (hhigh : tsp.next < tsp.numWorkers) :
    (∃ tsp', handleStream tsp s = some tsp' ∧
      tsp'.workers.getD tsp.next.toNat [] = tsp.workers.getD tsp.next.toNat [] ++ [s] ∧
      (∀ j : Nat, j ≠ tsp.next.toNat → tsp'.workers.getD j [] = tsp.workers.getD j []) ∧
      tsp'.workers.length = tsp.workers.length ∧
      tsp'.wg = tsp.wg + 1 ∧
      tsp'.next = (tsp.next + 1) % tsp.numWorkers ∧
      tsp'.numWorkers = tsp.numWorkers ∧
      0 ≤ tsp'.next ∧ tsp'.next < tsp'.numWorkers) ∧
    (tsp.next = 0 → ∀ ss : List (Option StreamReader),
      ∃ tsp', handleStreams tsp ss = some tsp' ∧
        (∀ j : Nat, j < tsp.workers.length →
          tsp'.workers.getD j [] = tsp.workers.getD j [] ++
            (ss.enum.filter fun x => decide (x.1 % tsp.workers.length = j)).map Prod.snd) ∧
        tsp'.wg = tsp.wg + ss.length ∧
        tsp'.next = (ss.length : Int) % tsp.numWorkers ∧
        0 ≤ tsp'.next ∧ tsp'.next < tsp'.numWorkers) := by
  have hpos : 0 < tsp.workers.length := by omega
  constructor
  · have hnext : tsp.next = (tsp.next.toNat : Int) := (Int.toNat_of_nonneg hlow).symm
    have hi : tsp.next.toNat < tsp.workers.length := by omega
    have hstep := handleStream_step tsp s tsp.next.toNat hlen hint hnext hi
    refine ⟨_, hstep, ?_, ?_, ?_, rfl, ?_, rfl, ?_, ?_⟩
    · simp only [getD_set_queue _ _ _ _ hi, if_true]
    · intro j hj
      simp only [getD_set_queue _ _ _ _ hi, hj, if_false]
    · simp only [List.length_set]
    · show (((tsp.next.toNat + 1) % tsp.workers.length : Nat) : Int) = _
      rw [hlen]
      push_cast
      rw [← hnext]
    · show 0 ≤ (((tsp.next.toNat + 1) % tsp.workers.length : Nat) : Int)
      omega
    · show (((tsp.next.toNat + 1) % tsp.workers.length : Nat) : Int) < tsp.numWorkers
      have := Nat.mod_lt (tsp.next.toNat + 1) hpos
      omega
  · intro hzero ss
    obtain ⟨tsp', hrun, hl', hn', hnx', hwg', hq'⟩ :=
      handleStreams_from ss tsp 0 hlen hint hpos (by simpa using hzero)
    refine ⟨tsp', hrun, hq', hwg', ?_, ?_, ?_⟩
    · rw [hnx', hlen]
      push_cast
      simp
    · rw [hnx']
      omega
    · rw [hnx', hn', hlen]
      have := Nat.mod_lt (0 + ss.length) hpos
      omega

/-- C22, at a concrete input: the pool after `initWorkers` (1000 workers,
cursor 0) receives a client, a server and a saved stream. -/
theorem round_robin_dispatch_witness :
    (initWorkers newProcessor 100).numWorkers
        = (((initWorkers newProcessor 100).workers.length : Nat) : Int) ∧
      (initWorkers newProcessor 100).numWorkers ≤ 9223372036854775807 ∧
      1 ≤ (initWorkers newProcessor 100).numWorkers ∧
      0 ≤ (initWorkers newProcessor 100).next ∧
      (initWorkers newProcessor 100).next < (initWorkers newProcessor 100).numWorkers ∧
      (initWorkers newProcessor 100).next = 0 ∧
      ∃ tsp', handleStreams (initWorkers newProcessor 100)
          [some clientStream, some serverStream, some savedStream] = some tsp' ∧
        tsp'.wg = 3 ∧ tsp'.next = 3 := by
  have hn : (initWorkers newProcessor 100).numWorkers = 1000 := by
    show (((List.replicate 1000 ([] : List (Option StreamReader))).length : Nat) : Int) = 1000
    rw [List.length_replicate]
    rfl
  have hl : (initWorkers newProcessor 100).workers.length = 1000 := by
    show (List.replicate 1000 ([] : List (Option StreamReader))).length = 1000
    exact List.length_replicate _ _
  have hx : (initWorkers newProcessor 100).next = 0 := rfl
  have hw : (initWorkers newProcessor 100).wg = 0 := rfl
  have h1 : (initWorkers newProcessor 100).numWorkers
      = (((initWorkers newProcessor 100).workers.length : Nat) : Int) := by
    rw [hn, hl]
    rfl
  have h2 : (initWorkers newProcessor 100).numWorkers ≤ 9223372036854775807 := by
    rw [hn]
    decide
  have h3 : 1 ≤ (initWorkers newProcessor 100).numWorkers := by
    rw [hn]
    decide
  have h4 : 0 ≤ (initWorkers newProcessor 100).next := by
    rw [hx]
  have h5 : (initWorkers newProcessor 100).next < (initWorkers newProcessor 100).numWorkers := by
    rw [hx, hn]
    decide
  refine ⟨h1, h2, h3, h4, h5, hx, ?_⟩
  obtain ⟨tsp', hrun, _, hwg, hnx, _⟩ :=
    (round_robin_dispatch (initWorkers newProcessor 100) none h1 h2 h3 h4 h5).2 hx
      [some clientStream, some serverStream, some savedStream]
  refine ⟨tsp', hrun, ?_, ?_⟩
  · rw [hwg, hw]
    rfl
  · rw [hnx, hn]
    decide

/-- The body of the worker loop on a non-nil stream, when the wait counter is
at least one: the state after it, with the events between the start and the
final `wg.Done()` spelled out. -/
theorem processStream_spec (env : WorkerEnv) (numTotal : Int) (st : WorkerState)
    (s : StreamReader) (hwg : 1 ≤ st.wg) :
    ∃ work : List WorkerEvent,
      processStream env numTotal st s = some
        { wg := st.wg - 1
          numDone := if s.Saved then st.numDone else wrapInt64 (st.numDone + 1)
          events := st.events ++ (work ++ [WorkerEvent.Done]) } ∧
      work.count WorkerEvent.Done = 0 ∧
      (s.Saved = true → work = []) ∧
      (s.Saved = false → ∃ tail : List WorkerEvent,
        work = (if s.IsClient then
            [WorkerEvent.saveConnection s.ConversationRaw s.ConversationColored s.Ident
              s.FirstPacket s.Transport]
          else [WorkerEvent.SortAndMergeFragments s, WorkerEvent.saveTCPServiceBanner s])
          ++ tail ∧
        ∀ e ∈ tail, e.isSaveCall = false) := by
  have hnot : ¬ st.wg - 1 < 0 := by omega
  cases hS : s.Saved
  · cases hC : s.IsClient
    · cases hQ : env.Quiet
      · refine ⟨[WorkerEvent.SortAndMergeFragments s, WorkerEvent.saveTCPServiceBanner s,
          WorkerEvent.setProcessingTime env.serverToClient,
          WorkerEvent.progress (wrapInt64 (st.numDone + 1)) numTotal], ?_, by simp [List.count_cons], by simp,
          fun _ => ⟨[WorkerEvent.setProcessingTime env.serverToClient,
            WorkerEvent.progress (wrapInt64 (st.numDone + 1)) numTotal], by simp, by simp [WorkerEvent.isSaveCall]⟩⟩
        simp [processStream, wgDone, hS, hC, hQ, hnot]
      · refine ⟨[WorkerEvent.SortAndMergeFragments s, WorkerEvent.saveTCPServiceBanner s,
          WorkerEvent.setProcessingTime env.serverToClient], ?_, by simp [List.count_cons], by simp,
          fun _ => ⟨[WorkerEvent.setProcessingTime env.serverToClient], by simp,
            by simp [WorkerEvent.isSaveCall]⟩⟩
        simp [processStream, wgDone, hS, hC, hQ, hnot]
    · cases hE : env.saveConnection s.ConversationRaw s.ConversationColored s.Ident
          s.FirstPacket s.Transport
      · cases hQ : env.Quiet
        · refine ⟨[WorkerEvent.saveConnection s.ConversationRaw s.ConversationColored s.Ident
              s.FirstPacket s.Transport,
            WorkerEvent.setProcessingTime env.clientToServer,
            WorkerEvent.progress (wrapInt64 (st.numDone + 1)) numTotal], ?_, by simp [List.count_cons], by simp,
            fun _ => ⟨[WorkerEvent.setProcessingTime env.clientToServer,
              WorkerEvent.progress (wrapInt64 (st.numDone + 1)) numTotal], by simp,
              by simp [WorkerEvent.isSaveCall]⟩⟩
          simp [processStream, wgDone, hS, hC, hQ, hE, hnot]
        · refine ⟨[WorkerEvent.saveConnection s.ConversationRaw s.ConversationColored s.Ident
              s.FirstPacket s.Transport,
            WorkerEvent.setProcessingTime env.clientToServer], ?_, by simp [List.count_cons], by simp,
            fun _ => ⟨[WorkerEvent.setProcessingTime env.clientToServer], by simp,
              by simp [WorkerEvent.isSaveCall]⟩⟩
          simp [processStream, wgDone, hS, hC, hQ, hE, hnot]
      · rename_i err
        cases hQ : env.Quiet
        · refine ⟨[WorkerEvent.saveConnection s.ConversationRaw s.ConversationColored s.Ident
              s.FirstPacket s.Transport, WorkerEvent.printFailed err,
            WorkerEvent.setProcessingTime env.clientToServer,
            WorkerEvent.progress (wrapInt64 (st.numDone + 1)) numTotal], ?_, by simp [List.count_cons], by simp,
            fun _ => ⟨[WorkerEvent.printFailed err,
              WorkerEvent.setProcessingTime env.clientToServer,
              WorkerEvent.progress (wrapInt64 (st.numDone + 1)) numTotal], by simp,
              by simp [WorkerEvent.isSaveCall]⟩⟩
          simp [processStream, wgDone, hS, hC, hQ, hE, hnot]
        · refine ⟨[WorkerEvent.saveConnection s.ConversationRaw s.ConversationColored s.Ident
              s.FirstPacket s.Transport, WorkerEvent.printFailed err,
            WorkerEvent.setProcessingTime env.clientToServer], ?_, by simp [List.count_cons], by simp,
            fun _ => ⟨[WorkerEvent.printFailed err,
              WorkerEvent.setProcessingTime env.clientToServer], by simp,
              by simp [WorkerEvent.isSaveCall]⟩⟩
          simp [processStream, wgDone, hS, hC, hQ, hE, hnot]
  · refine ⟨[], ?_, by decide, fun _ => rfl, by simp⟩
    simp [processStream, wgDone, hS, hnot]

theorem streamWorker_acknowledges (env : WorkerEnv) (numTotal : Int)
    (q : List (Option StreamReader)) :
    ∀ st : WorkerState, (∀ x ∈ q, x ≠ none) → (q.length : Int) ≤ st.wg →
      ∃ st', streamWorker env numTotal st q = some st' ∧
        st'.wg = st.wg - q.length ∧
        st'.events.count WorkerEvent.Done = st.events.count WorkerEvent.Done + q.length := by
  induction q with
  | nil =>
    intro st _ _
    exact ⟨st, rfl, by simp, by simp⟩
  | cons x rest ih =>
    intro st hsome hwg
    cases x with
    | none => exact absurd rfl (hsome none (List.mem_cons_self _ _))
    | some s =>
      simp only [List.length_cons, Nat.cast_add, Nat.cast_one] at hwg
      obtain ⟨work, hproc, hcount, _, _⟩ :=
        processStream_spec env numTotal st s (by omega)
      obtain ⟨st', hrun, hwg', hdone'⟩ :=
        ih { wg := st.wg - 1
             numDone := if s.Saved then st.numDone else wrapInt64 (st.numDone + 1)
             events := st.events ++ (work ++ [WorkerEvent.Done]) }
          (fun y hy => hsome y (List.mem_cons_of_mem _ hy)) (by simp only []; omega)
      refine ⟨st', ?_, ?_, ?_⟩
      · simp only [streamWorker, hproc, Option.bind_some]
        exact hrun
      · rw [hwg']
        simp only [List.length_cons, Nat.cast_add, Nat.cast_one]
        omega
      · rw [hdone']
        simp only [List.count_append, hcount, List.length_cons, List.count_singleton_self]
        omega

theorem runWorkers_acknowledges (env : WorkerEnv) (numTotal : Int)
    (qs : List (List (Option StreamReader))) :
    ∀ st : WorkerState, (∀ q ∈ qs, ∀ x ∈ q, x ≠ none) →
      (((qs.map List.length).sum : Nat) : Int) ≤ st.wg →
      ∃ st', runWorkers env numTotal st qs = some st' ∧
        st'.wg = st.wg - ((qs.map List.length).sum : Nat) ∧
        st'.events.count WorkerEvent.Done
          = st.events.count WorkerEvent.Done + (qs.map List.length).sum := by
  induction qs with
  | nil =>
    intro st _ _
    exact ⟨st, rfl, by simp, by simp⟩
  | cons q rest ih =>
    intro st hsome hwg
    simp only [List.map_cons, List.sum_cons, Nat.cast_add] at hwg
    obtain ⟨st1, hrun1, hwg1, hdone1⟩ :=
      streamWorker_acknowledges env numTotal q st (hsome q (List.mem_cons_self _ _)) (by omega)
    obtain ⟨st', hrun, hwg', hdone'⟩ :=
      ih st1 (fun q' hq' => hsome q' (List.mem_cons_of_mem _ hq')) (by rw [hwg1]; omega)
    refine ⟨st', ?_, ?_, ?_⟩
    · simp only [runWorkers, hrun1, Option.bind_some]
      exact hrun
    · rw [hwg', hwg1]
      simp only [List.map_cons, List.sum_cons, Nat.cast_add]
      omega
    · rw [hdone', hdone1]
      simp only [List.map_cons, List.sum_cons]
      omega

theorem sum_length_set {α : Type} (l : List (List α)) (a : α) :
    ∀ i : Nat, i < l.length →
      ((l.set i (l.getD i [] ++ [a])).map List.length).sum = (l.map List.length).sum + 1 := by
  induction l with
  | nil => intro i hi; simp at hi
  | cons q rest ih =>
    intro i hi
    cases i with
    | zero => simp; omega
    | succ i =>
      have := ih i (by simpa using hi)
      simp only [List.set_cons_succ, List.getD_cons_succ, List.map_cons, List.sum_cons, this]
      omega

theorem mem_set_queue {α : Type} (l : List (List α)) (a : α) (i : Nat) (q : List α)
    (hq : q ∈ l.set i (l.getD i [] ++ [a])) : q ∈ l ∨ (i < l.length ∧ q = l.getD i [] ++ [a]) := by
  induction l generalizing i with
  | nil => simp at hq
  | cons q0 rest ih =>
    cases i with
    | zero =>
      simp only [List.set_cons_zero, List.mem_cons] at hq
      rcases hq with hq | hq
      · exact Or.inr ⟨by simp, by simpa using hq⟩
      · exact Or.inl (List.mem_cons_of_mem _ hq)
    | succ i =>
      simp only [List.set_cons_succ, List.mem_cons, List.getD_cons_succ] at hq
      rcases hq with hq | hq
      · exact Or.inl (hq ▸ List.mem_cons_self _ _)
      · rcases ih i hq with h' | ⟨h1, h2⟩
        · exact Or.inl (List.mem_cons_of_mem _ h')
        · exact Or.inr ⟨by simpa using h1, by simpa using h2⟩

theorem getD_mem_of_lt {α : Type} (l : List (List α)) (i : Nat) (hi : i < l.length) :
    l.getD i [] ∈ l := by
  induction l generalizing i with
  | nil => simp at hi
  | cons q rest ih =>
    cases i with
    | zero => simp
    | succ i =>
      simp only [List.getD_cons_succ]
      exact List.mem_cons_of_mem _ (ih i (by simpa using hi))

/-- A sequence of `handleStream` calls with non-nil streams: the number of
queued streams grows by the number of calls and no channel holds a nil. -/
theorem handleStreams_total (ss : List (Option StreamReader)) :
    ∀ (tsp : tcpStreamProcessor) (c : Nat),
      tsp.numWorkers = (tsp.workers.length : Int) →
      tsp.numWorkers ≤ 9223372036854775807 →
      0 < tsp.workers.length →
      tsp.next = ((c % tsp.workers.length : Nat) : Int) →
      (∀ x ∈ ss, x ≠ none) →
      (∀ q ∈ tsp.workers, ∀ x ∈ q, x ≠ none) →
      ∃ tsp', handleStreams tsp ss = some tsp' ∧
        tsp'.wg = tsp.wg + ss.length ∧
        (tsp'.workers.map List.length).sum = (tsp.workers.map List.length).sum + ss.length ∧
        (∀ q ∈ tsp'.workers, ∀ x ∈ q, x ≠ none) := by
  induction ss with
  | nil =>
    intro tsp c _ _ _ _ _ hq
    exact ⟨tsp, rfl, by simp, by simp, hq⟩
  | cons s ss ih =>
    intro tsp c hlen hint hpos hnext hss hq
    have hi : c % tsp.workers.length < tsp.workers.length := Nat.mod_lt _ hpos
    have hstep := handleStream_step tsp s (c % tsp.workers.length) hlen hint hnext hi
    obtain ⟨tsp', hrun, hwg', hsum', hq'⟩ :=
      ih { tsp with
            wg := tsp.wg + 1
            workers := tsp.workers.set (c % tsp.workers.length)
              (tsp.workers.getD (c % tsp.workers.length) [] ++ [s])
            next := (((c % tsp.workers.length + 1) % tsp.workers.length : Nat) : Int) }
        (c + 1)
        (by simpa using hlen) hint (by simpa using hpos)
        (by simp [Nat.mod_add_mod])
        (fun x hx => hss x (List.mem_cons_of_mem _ hx))
        (by
          intro q hqmem x hx
          rcases mem_set_queue _ _ _ _ hqmem with h' | ⟨_, h'⟩
          · exact hq q h' x hx
          · rw [h', List.mem_append, List.mem_singleton] at hx
            rcases hx with hx | hx
            · exact hq _ (getD_mem_of_lt _ _ hi) x hx
            · exact hx ▸ hss s (List.mem_cons_self _ _))
    refine ⟨tsp', ?_, ?_, ?_, hq'⟩
    · simp only [handleStreams, hstep, Option.bind_some]
      exact hrun
    · rw [hwg']
      simp only [List.length_cons]
      push_cast
      omega
    · rw [hsum']
      simp only [sum_length_set _ _ _ hi, List.length_cons]
      omega

theorem sum_length_of_all_empty {α : Type} (l : List (List α)) (h : ∀ q ∈ l, q = []) :
    (l.map List.length).sum = 0 := by
  induction l with
  | nil => rfl
  | cons q rest ih =>
    have hq : q = [] := h q (List.mem_cons_self _ _)
    simp [hq, ih (fun q' hq' => h q' (List.mem_cons_of_mem _ hq'))]

/-- C23: a worker that receives a non-nil stream while the wait counter is at
least one (the stream's `handleStream` call has added to it) calls `wg.Done()`
exactly once, as its last step: the counter goes down by one, and for a stream
whose `Saved()` is true nothing else happens (no save call, `numDone`
unchanged). This holds whatever `saveConnection` returns. Hence, for a pool
with `numWorkers = len(workers) >= 1`, a cursor within bounds, empty channels
and a counter `wg >= 0`: after `handleStream` has been called for each of the
non-nil streams `ss` and the workers have handled what their channels hold,
`wg.Done()` has been called once per stream and the counter is back at its
initial value. -/
theorem worker_acknowledges_each_stream_once (env : WorkerEnv) (numTotal : Int)
    (st : WorkerState) (s : StreamReader) (tsp : tcpStreamProcessor) (ss : List StreamReader)
    (hwg : 1 ≤ st.wg)
    (hlen : tsp.numWorkers = (tsp.workers.length : Int))
    (hint : tsp.numWorkers ≤ 9223372036854775807)
    (hworkers : 1 ≤ tsp.numWorkers) (hlow : 0 ≤ tsp.next) (hhigh : tsp.next < tsp.numWorkers)
    (hempty : ∀ q ∈ tsp.workers, q = []) (hcounter : 0 ≤ tsp.wg) :
    (∃ st' work, processStream env numTotal st s = some st' ∧
      st'.wg = st.wg - 1 ∧
      st'.events = st.events ++ work ++ [WorkerEvent.Done] ∧
      work.count WorkerEvent.Done = 0 ∧
      (s.Saved = true → work = [] ∧ st'.numDone = st.numDone)) ∧
    (∃ tsp' st', handleStreams tsp (ss.map some) = some tsp' ∧
      tsp'.wg = tsp.wg + ss.length ∧
      runWorkers env numTotal ⟨tsp'.wg, tsp'.numDone, []⟩ tsp'.workers = some st' ∧
      st'.events.count WorkerEvent.Done = ss.length ∧
      st'.wg = tsp.wg) := by
  constructor
  · obtain ⟨work, hproc, hcount, hsaved, _⟩ := processStream_spec env numTotal st s hwg
    refine ⟨_, work, hproc, rfl, by simp, hcount, ?_⟩
    intro hs
    exact ⟨hsaved hs, by simp [hs]⟩
  · have hpos : 0 < tsp.workers.length := by omega
    have hlt : tsp.next.toNat < tsp.workers.length := by omega
    obtain ⟨tsp', hrun, hwg', hsum', hq'⟩ :=
      handleStreams_total (ss.map some) tsp tsp.next.toNat hlen hint hpos
        (by rw [Nat.mod_eq_of_lt hlt]; exact (Int.toNat_of_nonneg hlow).symm)
        (by intro x hx; obtain ⟨y, _, rfl⟩ := List.mem_map.mp hx; exact Option.some_ne_none y)
        (by intro q hq x hx; rw [hempty q hq] at hx; simp at hx)
    rw [sum_length_of_all_empty _ hempty, List.length_map, Nat.zero_add] at hsum'
    rw [List.length_map] at hwg'
    obtain ⟨st', hrun', hwgst, hdone⟩ :=
      runWorkers_acknowledges env numTotal tsp'.workers ⟨tsp'.wg, tsp'.numDone, []⟩ hq'
        (by simp only [hsum', hwg']; omega)
    refine ⟨tsp', st', hrun, hwg', hrun', ?_, ?_⟩
    · rw [hdone, hsum']
      simp
    · rw [hwgst, hsum']
      simp only [hwg']
      omega

/-- C23, at a concrete input: a worker receives a saved stream with the
counter at 1; and the pool after `initWorkers` dispatches a client, a server
and a saved stream, with a `saveConnection` that fails. -/
theorem worker_acknowledges_each_stream_once_witness :
    (1 : Int) ≤ (WorkerState.mk 1 0 []).wg ∧
      ∃ tsp' st', handleStreams (initWorkers newProcessor 100)
          ([clientStream, serverStream, savedStream].map some) = some tsp' ∧
        runWorkers sampleWorkerEnv 3 ⟨tsp'.wg, tsp'.numDone, []⟩ tsp'.workers = some st' ∧
        st'.events.count WorkerEvent.Done = 3 ∧
        st'.wg = 0 := by
  have hn : (initWorkers newProcessor 100).numWorkers = 1000 := by
    show (((List.replicate 1000 ([] : List (Option StreamReader))).length : Nat) : Int) = 1000
    rw [List.length_replicate]
    rfl
  have hl : (initWorkers newProcessor 100).workers.length = 1000 := by
    show (List.replicate 1000 ([] : List (Option StreamReader))).length = 1000
    exact List.length_replicate _ _
  have hx : (initWorkers newProcessor 100).next = 0 := rfl
  have hw : (initWorkers newProcessor 100).wg = 0 := rfl
  have hempty : ∀ q ∈ (initWorkers newProcessor 100).workers, q = [] := by
    intro q hq
    exact List.eq_of_mem_replicate hq
  refine ⟨by decide, ?_⟩
  obtain ⟨tsp', st', h1, _, h3, h4, h5⟩ :=
    (worker_acknowledges_each_stream_once sampleWorkerEnv 3 (WorkerState.mk 1 0 []) savedStream
      (initWorkers newProcessor 100) [clientStream, serverStream, savedStream]
      (by decide) (by rw [hn, hl]; rfl) (by rw [hn]; decide) (by rw [hn]; decide)
      (by rw [hx]) (by rw [hx, hn]; decide) hempty (by rw [hw])).2
  exact ⟨tsp', st', h1, h3, h4, by rw [h5, hw]⟩

/-- C24: a worker that processes a non-nil stream whose `Saved()` is false,
with the wait counter at least one: if `IsClient()` is true, its first step
is the one call `saveConnection(ConversationRaw, ConversationColored, Ident,
FirstPacket, Transport)` and no later step is a call of `saveConnection`,
`SortAndMergeFragments` or `saveTCPServiceBanner`; otherwise its first two
steps are `SortAndMergeFragments` and then `saveTCPServiceBanner` on the
stream, and no later step is one of the three calls. -/
theorem worker_saves_conversation_or_banner (env : WorkerEnv) (numTotal : Int)
    (st : WorkerState) (s : StreamReader) (hwg : 1 ≤ st.wg) (hunsaved : s.Saved = false) :
    ∃ st' rest, processStream env numTotal st s = some st' ∧
      (∀ e ∈ rest, e.isSaveCall = false) ∧
      (s.IsClient = true →
        st'.events = st.events ++
          WorkerEvent.saveConnection s.ConversationRaw s.ConversationColored s.Ident
            s.FirstPacket s.Transport :: rest) ∧
      (s.IsClient = false →
        st'.events = st.events ++
          WorkerEvent.SortAndMergeFragments s :: WorkerEvent.saveTCPServiceBanner s :: rest) := by
  obtain ⟨work, hproc, _, _, hwork⟩ := processStream_spec env numTotal st s hwg
  obtain ⟨tail, hw, htail⟩ := hwork hunsaved
  refine ⟨_, tail ++ [WorkerEvent.Done], hproc, ?_, ?_, ?_⟩
  · intro e he
    rw [List.mem_append, List.mem_singleton] at he
    rcases he with he | he
    · exact htail e he
    · rw [he]
      rfl
  · intro hc
    simp [hw, hc]
  · intro hc
    simp [hw, hc]

/-- C24, at a concrete input: a worker processes a client stream and a server
stream, with the counter at 1 and a `saveConnection` that fails. -/
theorem worker_saves_conversation_or_banner_witness :
    (1 : Int) ≤ (WorkerState.mk 1 0 []).wg ∧ clientStream.Saved = false ∧
      serverStream.Saved = false ∧
      (∃ st' rest, processStream sampleWorkerEnv 2 (WorkerState.mk 1 0 []) clientStream
          = some st' ∧ (∀ e ∈ rest, e.isSaveCall = false) ∧
        st'.events = WorkerEvent.saveConnection [1, 2, 3] [4, 5] "10.0.0.1:5000->10.0.0.2:80"
          100 ⟨"5000", "80", 13⟩ :: rest) ∧
      (∃ st' rest, processStream sampleWorkerEnv 2 (WorkerState.mk 1 0 []) serverStream
          = some st' ∧ (∀ e ∈ rest, e.isSaveCall = false) ∧
        st'.events = WorkerEvent.SortAndMergeFragments serverStream ::
          WorkerEvent.saveTCPServiceBanner serverStream :: rest) := by
  refine ⟨by decide, rfl, rfl, ?_, ?_⟩
  · obtain ⟨st', rest, h1, h2, h3, _⟩ :=
      worker_saves_conversation_or_banner sampleWorkerEnv 2 (WorkerState.mk 1 0 []) clientStream
        (by decide) rfl
    exact ⟨st', rest, h1, h2, by simpa using h3 rfl⟩
  · obtain ⟨st', rest, h1, h2, _, h4⟩ :=
      worker_saves_conversation_or_banner sampleWorkerEnv 2 (WorkerState.mk 1 0 []) serverStream
        (by decide) rfl
    exact ⟨st', rest, h1, h2, by simpa using h4 rfl⟩

/-! ## The background flush tasks -/

theorem perm_range_insert (items rest : List Nat) (n : Nat)
    (hp : (items ++ rest).Perm (List.range n)) :
    (items ++ [n] ++ rest).Perm (List.range (n + 1)) := by
  rw [List.range_succ]
  have hswap : (items ++ [n] ++ rest).Perm (items ++ rest ++ [n]) := by
    rw [List.append_assoc, List.append_assoc]
    exact List.Perm.append_left _ List.perm_append_comm
  exact hswap.trans (List.Perm.append_right _ hp)

theorem handlePacketSpawning_hit (h : Helpers) (c : Config) (t : Tracker) (p : Packet)
    (conn : Conn) (hl : lookupConn t.cd.Items (connIDOf p).String = some conn) :
    handlePacketSpawning h c t p =
      { t with
        cd := { t.cd with Items := storeConn t.cd.Items (connIDOf p).String (updateConnection h conn.Connection p) } } := by
  simp [handlePacketSpawning, hl]

theorem handlePacketSpawning_miss (h : Helpers) (c : Config) (t : Tracker) (p : Packet)
    (hl : lookupConn t.cd.Items (connIDOf p).String = none) :
    handlePacketSpawning h c t p =
      if c.ConnFlushInterval ≠ 0 ∧
          (insertConnection h t.cd (connIDOf p).String p).numConns.tmod c.ConnFlushInterval = 0 then
        { cd := { insertConnection h t.cd (connIDOf p).String p with
                  Items := (insertConnection h t.cd (connIDOf p).String p).Items.filter
                    fun e => !flushCond h c p e.2 }
          tasks := t.tasks ++
            [((insertConnection h t.cd (connIDOf p).String p).Items.filter
              fun e => flushCond h c p e.2).map Prod.snd] }
      else { t with cd := insertConnection h t.cd (connIDOf p).String p } := by
  simp [handlePacketSpawning, hl]

theorem handlePacketSpawning_accounted (h : Helpers) (c : Config) (t : Tracker) (p : Packet)
    (ht : t.Accounted) : (handlePacketSpawning h c t p).Accounted := by
  obtain ⟨hw, hr, hp⟩ := ht
  cases hl : lookupConn t.cd.Items (connIDOf p).String with
  | some conn =>
    rw [handlePacketSpawning_hit h c t p conn hl]
    refine ⟨hw, hr, ?_⟩
    simpa [itemPtrs, handedOver, storeConn_ptrs] using hp
  | none =>
    rw [handlePacketSpawning_miss h c t p hl]
    have hins : (List.map (fun e => e.2.ptr) t.cd.Items ++ [t.cd.allocs] ++
        List.map Conn.ptr t.tasks.flatten).Perm (List.range (t.cd.allocs + 1)) :=
      perm_range_insert _ _ _ (by simpa [itemPtrs, handedOver] using hp)
    split
    · refine ⟨hw, hr, ?_⟩
      simp only [itemPtrs, handedOver, insertConnection, List.flatten_append, List.flatten_cons,
        List.flatten_nil, List.append_nil, List.map_append, List.map_map, List.map_cons,
        List.map_nil] at hins ⊢
      refine List.Perm.trans ?_ hins
      have := map_filter_split_perm (fun e : String × Conn => e.2.ptr)
        (fun e => flushCond h c p e.2)
        (t.cd.Items ++ [((connIDOf p).String, Conn.mk t.cd.allocs (createConnection h p))])
        (List.map Conn.ptr t.tasks.flatten)
      simpa [List.map_append, Function.comp_def] using this
    · refine ⟨hw, hr, ?_⟩
      simpa [itemPtrs, handedOver, insertConnection] using hins

theorem feedSpawning_accounted (h : Helpers) (c : Config) (ps : List Packet) (t : Tracker)
    (ht : t.Accounted) : (feedSpawning h c t ps).Accounted := by
  induction ps generalizing t with
  | nil => exact ht
  | cons p rest ih => exact ih _ (handlePacketSpawning_accounted h c t p ht)

theorem start_accounted : (Tracker.start false).Accounted := by
  simp [Tracker.Accounted, Tracker.start, connectionDecoder, itemPtrs, handedOver]

theorem writtenByTasks_sublist (tasks : List (List Conn)) (progress : List Nat) :
    (writtenByTasks tasks progress).Sublist tasks.flatten := by
  induction tasks generalizing progress with
  | nil => simp [writtenByTasks]
  | cons task rest ih =>
    cases progress with
    | nil =>
      simp only [writtenByTasks, List.flatten_cons]
      exact (ih []).trans (List.sublist_append_right _ _)
    | cons n ns =>
      simp only [writtenByTasks, List.flatten_cons]
      exact List.Sublist.append (List.take_sublist n task) (ih ns)

theorem writtenByTasks_complete (tasks : List (List Conn)) :
    writtenByTasks tasks (tasks.map List.length) = tasks.flatten := by
  induction tasks with
  | nil => rfl
  | cons task rest ih => simp [writtenByTasks, ih]

/-- The embedding of `handlePacket` with the flush written at once is the one
with background tasks in which every task has completed: the two agree on the
map and on the counters of the map, and the records of the first are the
connections handed over in the second. -/
theorem handlePacketSpawning_agrees (h : Helpers) (c : Config) (t : Tracker)
    (cd : ConnectionDecoder) (p : Packet)
    (hI : t.cd.Items = cd.Items) (ha : t.cd.allocs = cd.allocs)
    (hn : t.cd.numConns = cd.numConns) (hr : handedOver t = cd.writer.records) :
    (handlePacketSpawning h c t p).cd.Items = (handlePacket h c cd p).Items ∧
      (handlePacketSpawning h c t p).cd.allocs = (handlePacket h c cd p).allocs ∧
      (handlePacketSpawning h c t p).cd.numConns = (handlePacket h c cd p).numConns ∧
      handedOver (handlePacketSpawning h c t p) = (handlePacket h c cd p).writer.records := by
  cases hl : lookupConn cd.Items (connIDOf p).String with
  | some conn =>
    rw [handlePacketSpawning_hit h c t p conn (hI ▸ hl), handlePacket_hit h c cd p conn hl]
    exact ⟨by simp [hI], ha, hn, hr⟩
  | none =>
    rw [handlePacketSpawning_miss h c t p (hI ▸ hl), handlePacket_miss h c cd p hl]
    simp only [insertConnection, hI, ha, hn]
    split
    · simp only [flush, foldl_writeConn_records, foldl_writeConn_Items, foldl_writeConn_allocs]
      refine ⟨trivial, trivial, ?_, ?_⟩
      · rw [foldl_writeConn_numConns]
      · simp [handedOver, ← hr]
    · exact ⟨rfl, rfl, rfl, hr⟩

theorem feedSpawning_agrees (h : Helpers) (c : Config) (ps : List Packet) (t : Tracker)
    (cd : ConnectionDecoder)
    (hI : t.cd.Items = cd.Items) (ha : t.cd.allocs = cd.allocs)
    (hn : t.cd.numConns = cd.numConns) (hr : handedOver t = cd.writer.records) :
    (feedSpawning h c t ps).cd.Items = (feed h c cd ps).Items ∧
      (feedSpawning h c t ps).cd.allocs = (feed h c cd ps).allocs ∧
      (feedSpawning h c t ps).cd.numConns = (feed h c cd ps).numConns ∧
      handedOver (feedSpawning h c t ps) = (feed h c cd ps).writer.records := by
  induction ps generalizing t cd with
  | nil => exact ⟨hI, ha, hn, hr⟩
  | cons p rest ih =>
    obtain ⟨h1, h2, h3, h4⟩ := handlePacketSpawning_agrees h c t cd p hI ha hn hr
    exact ih _ _ h1 h2 h3 h4

theorem feedSpawning_agrees_witness :
    (feedSpawning sampleHelpers sweepAlways (Tracker.start false) [pktA]).cd.Items =
        (feed sampleHelpers sweepAlways (connectionDecoder false) [pktA]).Items ∧
      (feedSpawning sampleHelpers sweepAlways (Tracker.start false) [pktA]).cd.allocs =
        (feed sampleHelpers sweepAlways (connectionDecoder false) [pktA]).allocs ∧
      (feedSpawning sampleHelpers sweepAlways (Tracker.start false) [pktA]).cd.numConns =
        (feed sampleHelpers sweepAlways (connectionDecoder false) [pktA]).numConns ∧
      handedOver (feedSpawning sampleHelpers sweepAlways (Tracker.start false) [pktA]) =
        (feed sampleHelpers sweepAlways (connectionDecoder false) [pktA]).writer.records :=
  feedSpawning_agrees sampleHelpers sweepAlways [pktA] (Tracker.start false)
    (connectionDecoder false) rfl rfl rfl rfl

/-- A connection handed to a background task that has not written when the
writer is closed is not in the sink, also with a file writer: with
`ConnFlushInterval=1` one packet is fed, the flush hands the connection
(address 0) to a task and deletes it from the map, and `Destroy` finds the map
empty. When the task has written, the connection is in the sink once. -/
theorem pending_task_connection_not_in_sink :
    (feedSpawning sampleHelpers sweepAlways (Tracker.start false) [pktA]).cd.allocs = 1 ∧
      (handedOver (feedSpawning sampleHelpers sweepAlways (Tracker.start false) [pktA])).map
        Conn.ptr = [0] ∧
      (feedSpawning sampleHelpers sweepAlways (Tracker.start false) [pktA]).cd.Items = [] ∧
      ((sinkAtClose sweepAlways
        (feedSpawning sampleHelpers sweepAlways (Tracker.start false) [pktA]) []).map
          Conn.ptr).count 0 = 0 ∧
      ((sinkAtClose sweepAlways
        (feedSpawning sampleHelpers sweepAlways (Tracker.start false) [pktA]) [1]).map
          Conn.ptr).count 0 = 1 := by
  decide
/-- C7, amended: with a writer that is not a channel writer, after any
sequence of `handlePacket` calls followed by `Destroy`: (1) every connection
the tracker created (every address below `allocs`) has either been handed to
the background task of a periodic flush or is in the map at shutdown, once and
not both, and no other address is; (2) the terminal drain writes exactly the
entries of the map at shutdown, each once; (3) whatever part of their writes
the background tasks have done when the writer is closed, no connection is in
the sink twice; (4) when the background tasks have done all their writes by
then, every connection created is in the sink exactly once. Whether the tasks
have written by then is not decided by the tracker: `Destroy` does not wait
for them. -/
theorem each_connection_handed_over_or_drained_once (h : Helpers) (c : Config)
    (ps : List Packet) (progress : List Nat) (a : Nat) :
    ((handedOver (feedSpawning h c (Tracker.start false) ps)).map Conn.ptr).count a +
          (itemPtrs (feedSpawning h c (Tracker.start false) ps).cd).count a =
        (if a < (feedSpawning h c (Tracker.start false) ps).cd.allocs then 1 else 0) ∧
      (Destroy c (feedSpawning h c (Tracker.start false) ps).cd).writer.records =
        (feedSpawning h c (Tracker.start false) ps).cd.Items.map Prod.snd ∧
      ((sinkAtClose c (feedSpawning h c (Tracker.start false) ps) progress).map Conn.ptr).count a
        ≤ 1 ∧
      ((sinkAtClose c (feedSpawning h c (Tracker.start false) ps)
          ((feedSpawning h c (Tracker.start false) ps).tasks.map List.length)).map
            Conn.ptr).count a =
        (if a < (feedSpawning h c (Tracker.start false) ps).cd.allocs then 1 else 0) := by
  obtain ⟨hw, hr, hp⟩ := feedSpawning_accounted h c ps _ start_accounted
  generalize feedSpawning h c (Tracker.start false) ps = t at hw hr hp ⊢
  have hrec : (Destroy c t.cd).writer.records = t.cd.Items.map Prod.snd := by
    rw [Destroy_records, hw, hr]
    simp
  have hcount : ∀ l : List Nat, l.Perm (List.range t.cd.allocs) →
      l.count a = if a < t.cd.allocs then 1 else 0 := by
    intro l hl
    rw [hl.count_eq]
    by_cases ha : a < t.cd.allocs
    · rw [if_pos ha]
      exact List.count_eq_one_of_mem (List.nodup_range _) (List.mem_range.mpr ha)
    · rw [if_neg ha]
      exact List.count_eq_zero_of_not_mem (fun hm => ha (List.mem_range.mp hm))
  have hp2 : ((handedOver t).map Conn.ptr ++ itemPtrs t.cd).Perm (List.range t.cd.allocs) :=
    List.perm_append_comm.trans hp
  have hall : (List.map Conn.ptr (handedOver t ++ t.cd.Items.map Prod.snd)).Perm
      (List.range t.cd.allocs) := by
    simpa [itemPtrs, List.map_append, List.map_map, Function.comp_def] using hp2
  refine ⟨?_, hrec, ?_, ?_⟩
  · rw [← List.count_append]
    exact hcount _ hp2
  · have hsub : (List.map Conn.ptr (sinkAtClose c t progress)).Sublist
        (List.map Conn.ptr (handedOver t ++ t.cd.Items.map Prod.snd)) := by
      unfold sinkAtClose handedOver
      rw [hrec]
      exact ((writtenByTasks_sublist t.tasks progress).append (List.Sublist.refl _)).map _
    refine (hsub.count_le a).trans ?_
    rw [hcount _ hall]
    split <;> omega
  · unfold sinkAtClose
    rw [hrec, writtenByTasks_complete]
    exact hcount _ hall

end Netcap
